import Mathlib

/-! Root contract internals.

A shallow embedding of `packages/vm/core/root/internal.go`: the lookup
`FindContract`, the chain info reader `GetChainInfo`, the fee resolver
`GetFeeInfo` and `GetFeeInfoByContractRecord` (with `GetDefaultFeeInfo`), the
enumeration `DecodeContractRegistry`, the owner check
`CheckAuthorizationByChainOwner`, the deployment orchestrator
`storeAndInitContract` and the authorization check `isAuthorizedToDeploy`,
followed by theorems about them.

Go functions that mutate the state reached through `ctx.State()` are written in
state-passing style: they take a `Sandbox` and return the sandbox after the
call. A Go `error` result is an `Option Err` (`none` is `nil`), a `[]byte`
result that may be `nil` is an `Option Bytes`, and a `*ContractRecord` that may
be `nil` is an `Option ContractRecord`.
-/

namespace Root

/-! ## Basic types -/

/-- Byte strings (`[]byte`). -/
abbrev Bytes := List Nat

/-- Keys of the flat store (`kv.Key`, a string of bytes). -/
abbrev Key := List Nat

/-- Contract identifiers (`coretypes.Hname`, a 32-bit value). -/
abbrev Hname := Nat

/-- Chain identifiers (`coretypes.ChainID`). -/
abbrev ChainID := Bytes

/-- Ledger addresses (`address.Address`). -/
abbrev Address := Bytes

/-- Asset colors (`balance.Color`). -/
abbrev Color := Bytes

/-- Call parameters and call results (`dict.Dict`). -/
abbrev Dict := List (Key × Bytes)

/-- Token transfers attached to a call (`coretypes.ColoredBalances`). -/
abbrev ColoredBalances := List (Color × Int)

/-- Errors. The constructors `alreadyExist`, `callingInit`, `contractNotFound`
and `wrapped` stand for the four `fmt.Errorf` sites of `internal.go` and carry
the arguments of the format string; `external` is an error produced by a
collaborator (the sandbox call, a codec). -/
inductive Err where
  | alreadyExist (name : String) (hname : Hname)
  | callingInit (name : String) (hname : Hname) (cause : Err)
  | contractNotFound (hname : Hname)
  | wrapped (cause : Err)
  | external (msg : String)
  deriving DecidableEq, Repr

/-- Modelled from the spec: the type `ContractRecord` is declared in
`interface.go`, which is not among the sources. The spec's data model gives it
the fields program hash, name, description, owner fee and validator fee, the
fees being signed 64-bit integers. -/
structure ContractRecord where
  ProgramHash : Bytes
  Description : String
  Name : String
  OwnerFee : Int
  ValidatorFee : Int
  deriving DecidableEq, Repr

/-- Contract identifiers on a chain (`coretypes.ContractID`): a chain
identifier and an `Hname`. -/
structure ContractID where
  chain : ChainID
  hname : Hname
  deriving DecidableEq, Repr

/-- The chain of a contract identifier (`ContractID.ChainID()`). -/
def ContractID.ChainID (c : ContractID) : ChainID := c.chain

/-- Modelled from the spec: the type `coretypes.AgentID` is not among the
sources. Per the spec an agent identifier denotes either an external address or
a specific contract on a specific chain. -/
inductive AgentID where
  | address (addr : Address)
  | contract (chain : ChainID) (hname : Hname)
  deriving DecidableEq, Repr

/-- Whether the agent identifier denotes an external address
(`AgentID.IsAddress()`). -/
def AgentID.IsAddress : AgentID → Bool
  | .address _ => true
  | .contract _ _ => false

/-- The contract identifier an agent identifier denotes
(`AgentID.MustContractID()`); `none` stands for the panic on an address. -/
def AgentID.MustContractID : AgentID → Option ContractID
  | .address _ => none
  | .contract chain hname => some ⟨chain, hname⟩

/-! ## The state accessor -/

/-- Modelled from the spec: the flat key-value store `kv.KVStore` is not among
the sources. Per the spec it is an abstract key-value interface with
byte-string keys and values supporting get, set, delete and "has key"; the
entries are kept in insertion order. -/
structure KVStore where
  entries : List (Key × Bytes)
  deriving DecidableEq, Repr

/-- Whether the key is present (`Has`). -/
def KVStore.Has (s : KVStore) (k : Key) : Bool :=
  s.entries.any (fun p => p.1 == k)

/-- The value under the key, `none` (Go `nil`) when absent (`Get`). -/
def KVStore.Get (s : KVStore) (k : Key) : Option Bytes :=
  (s.entries.find? (fun p => p.1 == k)).map Prod.snd

/-- As `Get`; the Go `MustGet` panics on a storage error, which an in-memory
state does not have. -/
def KVStore.MustGet (s : KVStore) (k : Key) : Option Bytes := s.Get k

/-- Write a value: a present key keeps its place, a new key is appended. -/
def KVStore.Set (s : KVStore) (k : Key) (v : Bytes) : KVStore :=
  if s.Has k then
    ⟨s.entries.map (fun p => if p.1 == k then (k, v) else p)⟩
  else
    ⟨s.entries ++ [(k, v)]⟩

/-- Remove the key entirely. -/
def KVStore.Del (s : KVStore) (k : Key) : KVStore :=
  ⟨s.entries.filter (fun p => !(p.1 == k))⟩

/-- Modelled from the spec: the container `datatypes.MustMap` is not among the
sources. Per the spec it is an ordered-map container built on top of the flat
store, a keyed sub-namespace with prefix-scoped iteration: the element with key
`k` of the map called `name` lives in the flat store under `name ++ k`. The Go
value is a handle on the store it was created from. -/
structure MustMap where
  kv : KVStore
  name : Key
  deriving DecidableEq, Repr

/-- A handle on the map called `name` in the store (`datatypes.NewMustMap`). -/
def NewMustMap (kv : KVStore) (name : Key) : MustMap := ⟨kv, name⟩

/-- The flat-store key of a map element. -/
def MustMap.elemKey (m : MustMap) (key : Bytes) : Key := m.name ++ key

/-- The bytes stored in the map under the key, `none` when absent (`GetAt`). -/
def MustMap.GetAt (m : MustMap) (key : Bytes) : Option Bytes :=
  m.kv.Get (m.elemKey key)

/-- Whether the map has the key (`HasAt`). -/
def MustMap.HasAt (m : MustMap) (key : Bytes) : Bool :=
  m.kv.Has (m.elemKey key)

/-- Write an element of the map (`SetAt`). -/
def MustMap.SetAt (m : MustMap) (key : Bytes) (value : Bytes) : MustMap :=
  { m with kv := m.kv.Set (m.elemKey key) value }

/-- Delete an element of the map (`DelAt`). -/
def MustMap.DelAt (m : MustMap) (key : Bytes) : MustMap :=
  { m with kv := m.kv.Del (m.elemKey key) }

/-- The elements of the map in iteration order, keys without the map's prefix:
what `Iterate` enumerates. -/
def MustMap.elems (m : MustMap) : List (Bytes × Bytes) :=
  (m.kv.entries.filter (fun p => m.name.isPrefixOf p.1)).map
    (fun p => (p.1.drop m.name.length, p.2))

/-- The number of elements of the map (`Len`). -/
def MustMap.Len (m : MustMap) : Nat := m.elems.length

/-! ## The sandbox -/

/-- One invocation of the sandbox's `Call`: its four arguments and the state
the callee was handed. -/
structure CallRecord where
  target : Hname
  entryPoint : Hname
  params : Dict
  transfer : Option ColoredBalances
  handed : KVStore
  deriving DecidableEq, Repr

/-- The part of `vmtypes.Sandbox` that `internal.go` uses. `host` is the
behaviour of the cross-contract call: from the four arguments of `Call` and the
state it is handed to the state it leaves, the returned dictionary and the
returned error. `calls` records the invocations of `Call` made so far. -/
structure Sandbox where
  Caller : AgentID
  ChainOwnerID : AgentID
  ChainID : Root.ChainID
  State : KVStore
  host : Hname → Hname → Dict → Option ColoredBalances → KVStore → KVStore × Dict × Option Err
  calls : List CallRecord

/-- The cross-contract call `ctx.Call(target, entryPoint, params, transfer)`:
runs the host's behaviour on the current state and records the invocation. -/
def Sandbox.Call (ctx : Sandbox) (target entryPoint : Hname) (params : Dict)
    (transfer : Option ColoredBalances) : Sandbox × Dict × Option Err :=
  let r := ctx.host target entryPoint params transfer ctx.State
  ({ ctx with
      State := r.1
      calls := ctx.calls ++ [⟨target, entryPoint, params, transfer, ctx.State⟩] },
   r.2.1, r.2.2)

/-! ## Imported declarations -/

/-- The declarations of the packages `coretypes`, `codec`, `balance` and of
`interface.go` that the embedded functions use and that are not among the
sources. They are parameters of the embedding. The decoders return the three
results of the Go functions: the value, the `ok` flag and the error. -/
structure Imports where
  Hn : String → Hname
  HnameBytes : Hname → Bytes
  EntryPointInit : Hname
  EncodeContractRecord : ContractRecord → Bytes
  AgentIDBytes : AgentID → Bytes
  VarContractRegistry : Key
  VarDeployAuthorisations : Key
  VarFeeColor : Key
  VarDefaultOwnerFee : Key
  VarDefaultValidatorFee : Key
  DecodeColor : Option Bytes → Color × Bool × Option Err
  DecodeInt64 : Option Bytes → Int × Bool × Option Err
  ColorIOTA : Color
  ColorZero : Color
  VarChainID : Key
  VarChainOwnerID : Key
  VarChainColor : Key
  VarChainAddress : Key
  VarDescription : Key
  DecodeChainID : Option Bytes → ChainID × Bool × Option Err
  DecodeAgentID : Option Bytes → AgentID × Bool × Option Err
  DecodeAddress : Option Bytes → Address × Bool × Option Err
  DecodeString : Option Bytes → String × Bool × Option Err
  /-- The Go function returns a `*ContractRecord` and an error. -/
  DecodeContractRecord : Bytes → Option ContractRecord × Option Err
  NewHnameFromBytes : Bytes → Hname × Option Err
  /-- The identifier of the root contract, `Interface.Hname()`. -/
  InterfaceHname : Hname
  /-- The record of the root contract for a creator,
  `NewContractRecord(Interface, creator)`. -/
  NewContractRecord : AgentID → ContractRecord
  /-- The zero value `coretypes.AgentID{}`. -/
  AgentIDZero : AgentID

/-- The chain's global variables (`ChainInfo`, declared in `interface.go`): the
fields are those that `GetChainInfo` assigns. -/
structure ChainInfo where
  ChainID : Root.ChainID
  ChainOwnerID : AgentID
  ChainColor : Color
  ChainAddress : Address
  Description : String
  FeeColor : Color
  DefaultOwnerFee : Int
  DefaultValidatorFee : Int
  deriving DecidableEq, Repr

/-- A Go map `map[coretypes.Hname]*ContractRecord`: at most one entry for a
key; the values are pointers, `none` being `nil`. -/
structure RecordMap where
  entries : List (Hname × Option ContractRecord)
  deriving DecidableEq, Repr

/-- The empty map (`make(map[coretypes.Hname]*ContractRecord)`). -/
def RecordMap.empty : RecordMap := ⟨[]⟩

/-- The assignment `ret[k] = v`: an entry of the key is replaced. -/
def RecordMap.set (m : RecordMap) (k : Hname) (v : Option ContractRecord) : RecordMap :=
  ⟨m.entries.filter (fun p => !(p.1 == k)) ++ [(k, v)]⟩

/-- The value of the key and whether the key is in the map (`v, ok := m[k]`). -/
def RecordMap.get (m : RecordMap) (k : Hname) : Option (Option ContractRecord) :=
  (m.entries.find? (fun p => p.1 == k)).map Prod.snd

/-- The number of entries (`len(m)`). -/
def RecordMap.len (m : RecordMap) : Nat := m.entries.length

/-- The loop of `Iterate` over the elements still to visit: the callback gets
the key, the value and the variables it captures, and returns the captured
variables and whether to go on. -/
def iterateElems {σ : Type} (f : Bytes → Bytes → σ → σ × Bool) :
    List (Bytes × Bytes) → σ → σ
  | [], st => st
  | p :: rest, st =>
    let r := f p.1 p.2 st
    if r.2 then iterateElems f rest r.1 else r.1

/-- Modelled from the spec: `Iterate` of the container `datatypes.MustMap`,
which is not among the sources: the elements are visited in insertion order,
and the iteration stops when the callback returns false. -/
def MustMap.Iterate {σ : Type} (m : MustMap) (f : Bytes → Bytes → σ → σ × Bool)
    (init : σ) : σ :=
  iterateElems f m.elems init

/-! ## The functions of `internal.go` -/

/-- Find a contract in the registry (`FindContract`): the record and the
error. -/
def FindContract (env : Imports) (state : KVStore) (hname : Hname) :
    Option ContractRecord × Option Err :=
  let contractRegistry := NewMustMap state env.VarContractRegistry
  match contractRegistry.GetAt (env.HnameBytes hname) with
  | none =>
    if hname = env.InterfaceHname then
      (some (env.NewContractRecord env.AgentIDZero), none)
    else
      (none, some (Err.contractNotFound hname))
  | some retBin =>
    let r := env.DecodeContractRecord retBin
    match r.2 with
    | some err => (none, some (Err.wrapped err))
    | none => (r.1, none)

/-- The global variables of the chain (`GetChainInfo`): the chain info and the
error. The Go function fills a zero `ChainInfo` field by field, so a default
fee whose decoder does not report `ok` stays 0. -/
def GetChainInfo (env : Imports) (state : KVStore) : Option ChainInfo × Option Err :=
  let dChainID := env.DecodeChainID (state.MustGet env.VarChainID)
  match dChainID.2.2 with
  | some err => (none, some err)
  | none =>
  let dOwnerID := env.DecodeAgentID (state.MustGet env.VarChainOwnerID)
  match dOwnerID.2.2 with
  | some err => (none, some err)
  | none =>
  let dColor := env.DecodeColor (state.MustGet env.VarChainColor)
  match dColor.2.2 with
  | some err => (none, some err)
  | none =>
  let dAddress := env.DecodeAddress (state.MustGet env.VarChainAddress)
  match dAddress.2.2 with
  | some err => (none, some err)
  | none =>
  let dDescription := env.DecodeString (state.MustGet env.VarDescription)
  match dDescription.2.2 with
  | some err => (none, some err)
  | none =>
  let dFeeColor := env.DecodeColor (state.MustGet env.VarFeeColor)
  match dFeeColor.2.2 with
  | some err => (none, some err)
  | none =>
  let feeColor := if dFeeColor.2.1 then dFeeColor.1 else env.ColorIOTA
  let dOwnerFee := env.DecodeInt64 (state.MustGet env.VarDefaultOwnerFee)
  match dOwnerFee.2.2 with
  | some err => (none, some err)
  | none =>
  let defaultOwnerFee := if dOwnerFee.2.1 then dOwnerFee.1 else 0
  let dValidatorFee := env.DecodeInt64 (state.MustGet env.VarDefaultValidatorFee)
  match dValidatorFee.2.2 with
  | some err => (none, some err)
  | none =>
  let defaultValidatorFee := if dValidatorFee.2.1 then dValidatorFee.1 else 0
  (some
    { ChainID := dChainID.1
      ChainOwnerID := dOwnerID.1
      ChainColor := dColor.1
      ChainAddress := dAddress.1
      Description := dDescription.1
      FeeColor := feeColor
      DefaultOwnerFee := defaultOwnerFee
      DefaultValidatorFee := defaultValidatorFee },
   none)

/-- The chain's fee color and default fees (`GetDefaultFeeInfo`). -/
def GetDefaultFeeInfo (env : Imports) (state : KVStore) : Color × Int × Int × Option Err :=
  let dc := env.DecodeColor (state.MustGet env.VarFeeColor)
  let feeColor := if !dc.2.1 then env.ColorIOTA else dc.1
  let dOwner := env.DecodeInt64 (state.MustGet env.VarDefaultOwnerFee)
  match dOwner.2.2 with
  | some err => (env.ColorZero, 0, 0, some err)
  | none =>
    let dValidator := env.DecodeInt64 (state.MustGet env.VarDefaultValidatorFee)
    match dValidator.2.2 with
    | some err => (env.ColorZero, 0, 0, some err)
    | none => (feeColor, dOwner.1, dValidator.1, none)

/-- The effective fees of a contract record (`GetFeeInfoByContractRecord`). -/
def GetFeeInfoByContractRecord (env : Imports) (state : KVStore)
    (rec : Option ContractRecord) : Color × Int × Int :=
  let fees : Int × Int :=
    match rec with
    | some r => (r.OwnerFee, r.ValidatorFee)
    | none => (0, 0)
  let d := GetDefaultFeeInfo env state
  let ownerFee := if fees.1 = 0 then d.2.1 else fees.1
  let validatorFee := if fees.2 = 0 then d.2.2.1 else fees.2
  (d.1, ownerFee, validatorFee)

/-- The fee info of a contract (`GetFeeInfo`): the error of the lookup is
dropped and the record it returned is used. -/
def GetFeeInfo (env : Imports) (state : KVStore) (hname : Hname) : Color × Int × Int :=
  let r := FindContract env state hname
  GetFeeInfoByContractRecord env state r.1

/-- The callback of `DecodeContractRegistry`. The captured variables are the
map `ret` and the error `err`; each of the two decodes assigns `err`. -/
def decodeRegistryEntry (env : Imports) (k v : Bytes) (st : RecordMap × Option Err) :
    (RecordMap × Option Err) × Bool :=
  let dHash := env.NewHnameFromBytes k
  match dHash.2 with
  | some err => ((st.1, some err), false)
  | none =>
    let dRec := env.DecodeContractRecord v
    match dRec.2 with
    | some err => ((st.1, some err), false)
    | none => ((st.1.set dHash.1 dRec.1, none), true)

/-- The whole contract registry as a Go map (`DecodeContractRegistry`): the
map and the error, both returned as the callback left them. -/
def DecodeContractRegistry (env : Imports) (contractRegistry : MustMap) :
    RecordMap × Option Err :=
  contractRegistry.Iterate (decodeRegistryEntry env) (RecordMap.empty, none)

/-- Whether the agent is the chain owner (`CheckAuthorizationByChainOwner`);
the `ok` flag and the error of the decoder are dropped. The function only reads
the state, so the embedding has no resulting state. -/
def CheckAuthorizationByChainOwner (env : Imports) (state : KVStore) (agentID : AgentID) :
    Bool :=
  let currentOwner := (env.DecodeAgentID (state.MustGet env.VarChainOwnerID)).1
  decide (currentOwner = agentID)

/-- Register the record and call the contract's `init` entry point; on failure
of the call delete the record again (`storeAndInitContract`). The result is the
sandbox after the function and the returned error. The Go map handle
`contractRegistry` refers to the sandbox's state, so after `ctx.Call` it is a
handle on the state the call left. -/
def storeAndInitContract (env : Imports) (ctx : Sandbox) (rec : ContractRecord)
    (initParams : Dict) : Sandbox × Option Err :=
  let hname := env.Hn rec.Name
  let contractRegistry := NewMustMap ctx.State env.VarContractRegistry
  if contractRegistry.HasAt (env.HnameBytes hname) then
    (ctx, some (Err.alreadyExist rec.Name hname))
  else
    let contractRegistry :=
      contractRegistry.SetAt (env.HnameBytes hname) (env.EncodeContractRecord rec)
    let ctx : Sandbox := { ctx with State := contractRegistry.kv }
    let r := ctx.Call (env.Hn rec.Name) env.EntryPointInit initParams none
    let ctx := r.1
    match r.2.2 with
    | some err =>
      let contractRegistry : MustMap := { contractRegistry with kv := ctx.State }
      let contractRegistry := contractRegistry.DelAt (env.HnameBytes hname)
      ({ ctx with State := contractRegistry.kv }, some (Err.callingInit rec.Name hname err))
    | none => (ctx, none)

/-- Whether the caller may deploy a contract (`isAuthorizedToDeploy`); `none`
stands for a panic of `MustContractID`. -/
def isAuthorizedToDeploy (env : Imports) (ctx : Sandbox) : Option Bool :=
  if ctx.Caller = ctx.ChainOwnerID then
    some true
  else if !ctx.Caller.IsAddress then
    match ctx.Caller.MustContractID with
    | none => none
    | some cid => some (decide (cid.ChainID = ctx.ChainID))
  else
    some ((NewMustMap ctx.State env.VarDeployAuthorisations).HasAt (env.AgentIDBytes ctx.Caller))

/-! ## Vocabulary of the statements -/

/-- The contract registry of a state. -/
def registry (env : Imports) (s : KVStore) : MustMap :=
  NewMustMap s env.VarContractRegistry

/-- The registry key of a record: the bytes of the identifier `Hn(rec.Name)`. -/
def registryKey (env : Imports) (rec : ContractRecord) : Bytes :=
  env.HnameBytes (env.Hn rec.Name)

/-- The state with the record written into the registry under its key. -/
def registered (env : Imports) (s : KVStore) (rec : ContractRecord) : KVStore :=
  ((registry env s).SetAt (registryKey env rec) (env.EncodeContractRecord rec)).kv

/-- What the host answers to the `init` call of a deployment of `rec` started
in the sandbox `ctx`: the state it leaves, its result and its error. -/
def initCall (env : Imports) (ctx : Sandbox) (rec : ContractRecord) (initParams : Dict) :
    KVStore × Dict × Option Err :=
  ctx.host (env.Hn rec.Name) env.EntryPointInit initParams none (registered env ctx.State rec)

/-- The errors of the five decodes that `GetChainInfo` makes first, those of
the identifier, the owner, the color, the address and the description, in the
order of the code. -/
def mandatoryErrs (env : Imports) (state : KVStore) : List (Option Err) :=
  [(env.DecodeChainID (state.MustGet env.VarChainID)).2.2,
   (env.DecodeAgentID (state.MustGet env.VarChainOwnerID)).2.2,
   (env.DecodeColor (state.MustGet env.VarChainColor)).2.2,
   (env.DecodeAddress (state.MustGet env.VarChainAddress)).2.2,
   (env.DecodeString (state.MustGet env.VarDescription)).2.2]

/-- The error with which a registry entry fails to decode, if it does: the
error of its key, else the error of its value. -/
def entryErr (env : Imports) (p : Bytes × Bytes) : Option Err :=
  match (env.NewHnameFromBytes p.1).2 with
  | some e => some e
  | none => (env.DecodeContractRecord p.2).2

/-- What a registry entry decodes to: the identifier decoded from its key and
the record decoded from its value. -/
def decodedEntry (env : Imports) (p : Bytes × Bytes) : Hname × Option ContractRecord :=
  ((env.NewHnameFromBytes p.1).1, (env.DecodeContractRecord p.2).1)

/-- The Go map after the assignments `ret[h] = cr` for the given registry
entries, in their order, starting from the map `m`. -/
def assignAll (env : Imports) (l : List (Bytes × Bytes)) (m : RecordMap) : RecordMap :=
  l.foldl (fun acc p => acc.set (decodedEntry env p).1 (decodedEntry env p).2) m

/-! ## Sample data -/

/-- A concrete instance of the imported declarations, for evaluating the
functions: identifiers are name lengths, so distinct names may collide. -/
def sampleImports : Imports where
  Hn := fun name => name.length
  HnameBytes := fun h => [h]
  EntryPointInit := 0
  EncodeContractRecord := fun r => [r.Name.length, r.OwnerFee.toNat, r.ValidatorFee.toNat]
  AgentIDBytes := fun a =>
    match a with
    | .address addr => 0 :: addr
    | .contract chain hname => 1 :: hname :: chain
  VarContractRegistry := [114]
  VarDeployAuthorisations := [100]
  VarFeeColor := [102]
  VarDefaultOwnerFee := [111]
  VarDefaultValidatorFee := [118]
  DecodeColor := fun b =>
    match b with
    | none => ([], false, none)
    | some c => if c.length = 2 then (c, true, none) else ([], false, some (Err.external "color"))
  DecodeInt64 := fun b =>
    match b with
    | none => (0, false, none)
    | some [n] => (n, true, none)
    | some _ => (0, false, some (Err.external "int64"))
  ColorIOTA := [0, 0]
  ColorZero := [0, 0]
  VarChainID := [99]
  VarChainOwnerID := [104]
  VarChainColor := [120]
  VarChainAddress := [97]
  VarDescription := [115]
  DecodeChainID := fun b =>
    match b with
    | none => ([], false, none)
    | some c => if c.length = 1 then (c, true, none) else ([], false, some (Err.external "chain"))
  DecodeAgentID := fun b =>
    match b with
    | none => (.address [], false, none)
    | some (0 :: addr) => (.address addr, true, none)
    | some (1 :: hname :: chain) => (.contract chain hname, true, none)
    | some _ => (.address [], false, some (Err.external "agent"))
  DecodeAddress := fun b =>
    match b with
    | none => ([], false, none)
    | some a => if a.length = 1 then (a, true, none) else ([], false, some (Err.external "address"))
  DecodeString := fun b =>
    match b with
    | none => ("", false, none)
    | some l => (String.mk (l.map Char.ofNat), true, none)
  DecodeContractRecord := fun b =>
    match b with
    | [n, o, v] => (some ⟨[], "", String.mk (List.replicate n 'a'), o, v⟩, none)
    | _ => (none, some (Err.external "record"))
  NewHnameFromBytes := fun b =>
    match b with
    | [h] => (h, none)
    | _ => (0, some (Err.external "hname"))
  InterfaceHname := 4
  NewContractRecord := fun _ => ⟨[4], "root", "root", 0, 0⟩
  AgentIDZero := .address []

/-- A host whose calls fail and leave the state as handed. -/
def hostFails : Hname → Hname → Dict → Option ColoredBalances → KVStore →
    KVStore × Dict × Option Err :=
  fun _ _ _ _ s => (s, [], some (Err.external "init failed"))

/-- A host whose calls succeed and leave the state as handed. -/
def hostSucceeds : Hname → Hname → Dict → Option ColoredBalances → KVStore →
    KVStore × Dict × Option Err :=
  fun _ _ _ _ s => (s, [], none)

/-- A host whose calls succeed after writing one more registry entry, under
the key `[9]`: an `init` that deploys a further contract. -/
def hostDeploysAnother : Hname → Hname → Dict → Option ColoredBalances → KVStore →
    KVStore × Dict × Option Err :=
  fun _ _ _ _ s => (s.Set [114, 9] [9, 0, 0], [], none)

/-- A sandbox with the given state and host; the caller is the chain owner. -/
def sampleSandbox (s : KVStore)
    (host : Hname → Hname → Dict → Option ColoredBalances → KVStore →
      KVStore × Dict × Option Err) : Sandbox where
  Caller := .address [1]
  ChainOwnerID := .address [1]
  ChainID := [7]
  State := s
  host := host
  calls := []

/-- A record named `alpha`. -/
def alpha : ContractRecord := ⟨[5], "first", "alpha", 0, 500⟩

/-- A record named `gamma`: another name of the same length as `alpha`. -/
def gamma : ContractRecord := ⟨[6], "second", "gamma", 3, 0⟩

/-- A state with one registered contract, named `beta`, and default fees. -/
def sampleState : KVStore :=
  ⟨[([114, 4], [4, 0, 0]), ([111], [10]), ([118], [20])]⟩

/-- A sandbox for the authorization check: caller, chain owner, chain and
state are given; no call is made. -/
def authSandbox (caller owner : AgentID) (chain : ChainID) (s : KVStore) : Sandbox where
  Caller := caller
  ChainOwnerID := owner
  ChainID := chain
  State := s
  host := hostSucceeds
  calls := []

/-- A state whose deployment authorization list holds the address `[3]`, with
an empty value. -/
def authState : KVStore := ⟨[([100, 0, 3], [])]⟩

/-- A state with all eight chain variables: chain `[7]`, owner the address
`[1]`, chain color `[5, 5]`, chain address `[8]`, a description, fee color
`[6, 6]` and the default fees 10 and 20. -/
def chainState : KVStore :=
  ⟨[([99], [7]), ([104], [0, 1]), ([120], [5, 5]), ([97], [8]), ([115], [104, 105]),
    ([102], [6, 6]), ([111], [10]), ([118], [20])]⟩

/-- The state `chainState` without the chain color. -/
def chainStateNoColor : KVStore :=
  ⟨[([99], [7]), ([104], [0, 1]), ([97], [8]), ([115], [104, 105]),
    ([102], [6, 6]), ([111], [10]), ([118], [20])]⟩

/-- The state `chainState` with a malformed chain color. -/
def chainStateBadColor : KVStore :=
  ⟨[([99], [7]), ([104], [0, 1]), ([120], [5]), ([97], [8]), ([115], [104, 105]),
    ([102], [6, 6]), ([111], [10]), ([118], [20])]⟩

/-- The five mandatory chain variables only: no fee color, no default fees. -/
def chainStateNoFees : KVStore :=
  ⟨[([99], [7]), ([104], [0, 1]), ([120], [5, 5]), ([97], [8]), ([115], [104, 105])]⟩

/-- A state whose registry has two entries that decode, under the keys `[4]`
and `[5]`. -/
def registryState : KVStore :=
  ⟨[([114, 4], [4, 0, 0]), ([111], [10]), ([114, 5], [5, 0, 500])]⟩

/-- A state whose registry has an entry that decodes, under the key `[4]`,
followed by an entry whose value does not decode, under the key `[5]`, and a
third entry. -/
def brokenRegistryState : KVStore :=
  ⟨[([114, 4], [4, 0, 0]), ([114, 5], [5]), ([114, 6], [6, 1, 1])]⟩

/-- A state with the fee color `[6, 6]`, a default owner fee that does not
decode and the default validator fee 20; its registry is empty. -/
def badFeeState : KVStore :=
  ⟨[([102], [6, 6]), ([111], [1, 2]), ([118], [20])]⟩

/-! ## Lemmas on the store -/

theorem KVStore.has_del_self (s : KVStore) (k : Key) : (s.Del k).Has k = false := by
  simp [KVStore.Has, KVStore.Del]

theorem KVStore.get_eq_none_of_has_eq_false (s : KVStore) (k : Key)
    (h : s.Has k = false) : s.Get k = none := by
  simp only [KVStore.Has, List.any_eq_false] at h
  simp only [KVStore.Get, Option.map_eq_none', List.find?_eq_none]
  exact h

theorem KVStore.filter_of_has_eq_false (s : KVStore) (k : Key) (h : s.Has k = false) :
    s.entries.filter (fun p => !(p.1 == k)) = s.entries := by
  simp only [KVStore.Has, List.any_eq_false] at h
  rw [List.filter_eq_self]
  intro p hp
  simpa using h p hp

theorem KVStore.del_set_of_has_eq_false (s : KVStore) (k : Key) (v : Bytes)
    (h : s.Has k = false) : (s.Set k v).Del k = s := by
  have hf := KVStore.filter_of_has_eq_false s k h
  cases s with
  | mk es =>
    simp only [KVStore.Set, h, KVStore.Del]
    simp only [Bool.false_eq_true, if_false, List.filter_append, KVStore.mk.injEq]
    simp only at hf
    rw [hf]
    simp

theorem KVStore.has_set_self (s : KVStore) (k : Key) (v : Bytes) :
    (s.Set k v).Has k = true := by
  by_cases h : s.Has k = true
  · simp only [KVStore.Set, h, if_true]
    simp only [KVStore.Has, List.any_eq_true] at h ⊢
    obtain ⟨p, hp, hk⟩ := h
    refine ⟨(k, v), ?_, by simp⟩
    rw [List.mem_map]
    exact ⟨p, hp, by simp [hk]⟩
  · have h0 : s.Has k = false := by simpa using h
    simp only [KVStore.Set, h0, Bool.false_eq_true, if_false]
    simp [KVStore.Has]

theorem KVStore.get_set_self (s : KVStore) (k : Key) (v : Bytes) :
    (s.Set k v).Get k = some v := by
  by_cases h : s.Has k = true
  · simp only [KVStore.Set, h, if_true, KVStore.Get]
    simp only [KVStore.Has] at h
    cases s with
    | mk es =>
      simp only at h ⊢
      induction es with
      | nil => simp at h
      | cons p es ih =>
        by_cases hp : p.1 = k
        · simp [List.find?_cons, hp]
        · have hes : es.any (fun p => p.1 == k) = true := by
            simpa [List.any_cons, hp] using h
          simpa [List.find?_cons, hp] using ih hes
  · have h0 : s.Has k = false := by simpa using h
    simp only [KVStore.Set, h0, Bool.false_eq_true, if_false, KVStore.Get]
    simp only [KVStore.Has, List.any_eq_false] at h0
    rw [List.find?_append]
    have hnone : s.entries.find? (fun p => p.1 == k) = none := by
      rw [List.find?_eq_none]; exact h0
    simp [hnone]

theorem KVStore.get_set_of_ne (s : KVStore) (k k' : Key) (v : Bytes) (hne : k' ≠ k) :
    (s.Set k v).Get k' = s.Get k' := by
  by_cases h : s.Has k = true
  · simp only [KVStore.Set, h, if_true, KVStore.Get]
    cases s with
    | mk es =>
      simp only
      clear h
      induction es with
      | nil => simp
      | cons p es ih =>
        by_cases hp : p.1 = k
        · have hp' : ¬ p.1 = k' := fun e => hne (e.symm.trans hp)
          simpa [List.find?_cons, hp, hp', Ne.symm hne] using ih
        · have hpk : (p.1 == k) = false := by simpa using hp
          simp only [List.map_cons, hpk, Bool.false_eq_true, if_false, List.find?_cons]
          cases hq : (p.1 == k')
          · simpa using ih
          · rfl
  · have h0 : s.Has k = false := by simpa using h
    simp only [KVStore.Set, h0, Bool.false_eq_true, if_false, KVStore.Get]
    rw [List.find?_append]
    simp [List.find?_cons, Ne.symm hne]

theorem MustMap.elemKey_inj (m : MustMap) (k k' : Bytes) (h : m.elemKey k = m.elemKey k') :
    k = k' := by
  simpa [MustMap.elemKey] using h

theorem MustMap.elems_setAt_of_hasAt_eq_false (m : MustMap) (k v : Bytes)
    (h : m.HasAt k = false) : (m.SetAt k v).elems = m.elems ++ [(k, v)] := by
  simp only [MustMap.HasAt] at h
  simp only [MustMap.elems, MustMap.SetAt, KVStore.Set, h, Bool.false_eq_true, if_false,
    List.filter_append, List.map_append]
  have hp : m.name.isPrefixOf (m.elemKey k) = true := by
    simp [MustMap.elemKey]
  simp [List.filter_cons, hp, MustMap.elemKey]

theorem find_elems_aux (name k : List Nat) (es : List (Key × Bytes)) :
    (es.find? (fun p => p.1 == name ++ k)).map Prod.snd =
      (((es.filter (fun p => name.isPrefixOf p.1)).map
        (fun p => (p.1.drop name.length, p.2))).find? (fun p => p.1 == k)).map Prod.snd := by
  induction es with
  | nil => rfl
  | cons p es ih =>
    by_cases hpre : name.isPrefixOf p.1 = true
    · have hb : (p.1 == name ++ k) = (p.1.drop name.length == k) := by
        obtain ⟨t, ht⟩ := List.isPrefixOf_iff_prefix.mp hpre
        rw [← ht]
        simp
      have hf : (p :: es).filter (fun p => name.isPrefixOf p.1) =
          p :: es.filter (fun p => name.isPrefixOf p.1) := List.filter_cons_of_pos hpre
      rw [hf, List.map_cons, List.find?_cons, List.find?_cons, hb]
      cases (p.1.drop name.length == k)
      · exact ih
      · rfl
    · have hb : (p.1 == name ++ k) = false := by
        rw [beq_eq_false_iff_ne]
        intro e
        apply hpre
        rw [e]
        simp
      have hf : (p :: es).filter (fun p => name.isPrefixOf p.1) =
          es.filter (fun p => name.isPrefixOf p.1) := List.filter_cons_of_neg hpre
      rw [hf, List.find?_cons, hb]
      exact ih

theorem MustMap.getAt_eq_find_elems (m : MustMap) (k : Bytes) :
    m.GetAt k = (m.elems.find? (fun p => p.1 == k)).map Prod.snd :=
  find_elems_aux m.name k m.kv.entries

/-! ## Deployment: `storeAndInitContract` -/

theorem storeAndInitContract_of_fails (env : Imports) (ctx : Sandbox) (rec : ContractRecord)
    (initParams : Dict) (cause : Err)
    (habsent : (registry env ctx.State).HasAt (registryKey env rec) = false)
    (hfail : (initCall env ctx rec initParams).2.2 = some cause) :
    storeAndInitContract env ctx rec initParams =
      ({ ctx with
          State := (initCall env ctx rec initParams).1.Del
            ((registry env ctx.State).elemKey (registryKey env rec))
          calls := ctx.calls ++ [⟨env.Hn rec.Name, env.EntryPointInit, initParams, none,
            registered env ctx.State rec⟩] },
        some (Err.callingInit rec.Name (env.Hn rec.Name) cause)) := by
  simp only [registry, registryKey, initCall, registered] at habsent hfail ⊢
  simp only [storeAndInitContract, habsent, Sandbox.Call, hfail]
  rfl

theorem storeAndInitContract_of_succeeds (env : Imports) (ctx : Sandbox) (rec : ContractRecord)
    (initParams : Dict)
    (habsent : (registry env ctx.State).HasAt (registryKey env rec) = false)
    (hsucc : (initCall env ctx rec initParams).2.2 = none) :
    storeAndInitContract env ctx rec initParams =
      ({ ctx with
          State := (initCall env ctx rec initParams).1
          calls := ctx.calls ++ [⟨env.Hn rec.Name, env.EntryPointInit, initParams, none,
            registered env ctx.State rec⟩] },
        none) := by
  simp only [registry, registryKey, initCall, registered] at habsent hsucc ⊢
  simp only [storeAndInitContract, habsent, Sandbox.Call, hsucc]
  rfl

/-- C1: when the identifier of the record is not in the registry and the `init`
call fails, whatever else the call does to the state, `storeAndInitContract`
returns an error (the `init` error wrapped with the name and identifier) and
leaves no registry entry under the identifier. -/
theorem storeAndInitContract_init_fails (env : Imports) (ctx : Sandbox) (rec : ContractRecord)
    (initParams : Dict)
    (habsent : (registry env ctx.State).HasAt (registryKey env rec) = false)
    (hfail : (initCall env ctx rec initParams).2.2 ≠ none) :
    (registry env (storeAndInitContract env ctx rec initParams).1.State).HasAt
        (registryKey env rec) = false
    ∧ (registry env (storeAndInitContract env ctx rec initParams).1.State).GetAt
        (registryKey env rec) = none
    ∧ ∃ cause, (initCall env ctx rec initParams).2.2 = some cause
        ∧ (storeAndInitContract env ctx rec initParams).2
          = some (Err.callingInit rec.Name (env.Hn rec.Name) cause) := by
  obtain ⟨cause, hc⟩ := Option.ne_none_iff_exists'.mp hfail
  rw [storeAndInitContract_of_fails env ctx rec initParams cause habsent hc]
  have hhas : ((initCall env ctx rec initParams).1.Del
      ((registry env ctx.State).elemKey (registryKey env rec))).Has
      ((registry env ctx.State).elemKey (registryKey env rec)) = false :=
    KVStore.has_del_self _ _
  refine ⟨hhas, ?_, cause, hc, rfl⟩
  exact KVStore.get_eq_none_of_has_eq_false _ _ hhas

/-- C1, on a sample: deploying `alpha` into the sample state with a failing
host. -/
theorem storeAndInitContract_init_fails_witness :
    (registry sampleImports
        (storeAndInitContract sampleImports (sampleSandbox sampleState hostFails) alpha []).1.State).HasAt
        (registryKey sampleImports alpha) = false
    ∧ (registry sampleImports
        (storeAndInitContract sampleImports (sampleSandbox sampleState hostFails) alpha []).1.State).GetAt
        (registryKey sampleImports alpha) = none
    ∧ ∃ cause, (initCall sampleImports (sampleSandbox sampleState hostFails) alpha []).2.2 = some cause
        ∧ (storeAndInitContract sampleImports (sampleSandbox sampleState hostFails) alpha []).2
          = some (Err.callingInit alpha.Name (sampleImports.Hn alpha.Name) cause) :=
  storeAndInitContract_init_fails sampleImports (sampleSandbox sampleState hostFails) alpha []
    (by decide) (by decide)

/-- C2: rollback is exact. When the identifier of the record is not in the
registry and the failing `init` call leaves the state it was handed unchanged,
the state after `storeAndInitContract` equals the state before it; in
particular the registry enumerates the same elements and has the same length. -/
theorem storeAndInitContract_rollback_exact (env : Imports) (ctx : Sandbox)
    (rec : ContractRecord) (initParams : Dict)
    (habsent : (registry env ctx.State).HasAt (registryKey env rec) = false)
    (hfail : (initCall env ctx rec initParams).2.2 ≠ none)
    (hsame : (initCall env ctx rec initParams).1 = registered env ctx.State rec) :
    (storeAndInitContract env ctx rec initParams).1.State = ctx.State
    ∧ (registry env (storeAndInitContract env ctx rec initParams).1.State).elems
        = (registry env ctx.State).elems
    ∧ (registry env (storeAndInitContract env ctx rec initParams).1.State).Len
        = (registry env ctx.State).Len := by
  obtain ⟨cause, hc⟩ := Option.ne_none_iff_exists'.mp hfail
  have hstate : (storeAndInitContract env ctx rec initParams).1.State = ctx.State := by
    rw [storeAndInitContract_of_fails env ctx rec initParams cause habsent hc, hsame]
    exact KVStore.del_set_of_has_eq_false ctx.State _ _ habsent
  rw [hstate]
  exact ⟨rfl, rfl, rfl⟩

/-- C2, on a sample: the failed deployment of `alpha` gives back the sample
state. -/
theorem storeAndInitContract_rollback_exact_witness :
    (storeAndInitContract sampleImports (sampleSandbox sampleState hostFails) alpha []).1.State
        = sampleState
    ∧ (registry sampleImports
        (storeAndInitContract sampleImports (sampleSandbox sampleState hostFails) alpha []).1.State).elems
        = (registry sampleImports sampleState).elems
    ∧ (registry sampleImports
        (storeAndInitContract sampleImports (sampleSandbox sampleState hostFails) alpha []).1.State).Len
        = (registry sampleImports sampleState).Len :=
  storeAndInitContract_rollback_exact sampleImports (sampleSandbox sampleState hostFails) alpha []
    (by decide) (by decide) (by decide)

/-- C3: when the identifier of the record is already in the registry,
`storeAndInitContract` returns the "already exist" error, makes no call, and
leaves the state (so also the existing entry) unchanged. -/
theorem storeAndInitContract_already_exists (env : Imports) (ctx : Sandbox)
    (rec : ContractRecord) (initParams : Dict)
    (hpresent : (registry env ctx.State).HasAt (registryKey env rec) = true) :
    (storeAndInitContract env ctx rec initParams).2
        = some (Err.alreadyExist rec.Name (env.Hn rec.Name))
    ∧ (storeAndInitContract env ctx rec initParams).1.calls = ctx.calls
    ∧ (storeAndInitContract env ctx rec initParams).1.State = ctx.State
    ∧ (registry env (storeAndInitContract env ctx rec initParams).1.State).GetAt
        (registryKey env rec) = (registry env ctx.State).GetAt (registryKey env rec) := by
  simp only [registry, registryKey] at hpresent ⊢
  simp [storeAndInitContract, hpresent]

/-- C3, on a sample: after `alpha` is deployed, deploying `gamma`, another name
with the same identifier, is refused and the entry of `alpha` stays. -/
theorem storeAndInitContract_already_exists_witness :
    (registry sampleImports (registered sampleImports sampleState alpha)).GetAt
        (registryKey sampleImports gamma) = some (sampleImports.EncodeContractRecord alpha)
    ∧ (storeAndInitContract sampleImports
        (sampleSandbox (registered sampleImports sampleState alpha) hostSucceeds) gamma []).2
        = some (Err.alreadyExist gamma.Name (sampleImports.Hn gamma.Name))
    ∧ (storeAndInitContract sampleImports
        (sampleSandbox (registered sampleImports sampleState alpha) hostSucceeds) gamma []).1.calls
        = []
    ∧ (storeAndInitContract sampleImports
        (sampleSandbox (registered sampleImports sampleState alpha) hostSucceeds) gamma []).1.State
        = registered sampleImports sampleState alpha
    ∧ (registry sampleImports (storeAndInitContract sampleImports
        (sampleSandbox (registered sampleImports sampleState alpha) hostSucceeds) gamma []).1.State).GetAt
        (registryKey sampleImports gamma)
        = (registry sampleImports (registered sampleImports sampleState alpha)).GetAt
            (registryKey sampleImports gamma) :=
  ⟨by decide,
    storeAndInitContract_already_exists sampleImports
      (sampleSandbox (registered sampleImports sampleState alpha) hostSucceeds) gamma []
      (by decide)⟩

/-- C4, as stated, fails: the host `hostDeploysAnother` answers the `init` call
of `alpha` with success and leaves the entry of `alpha` as written, but it
registers a further contract under the key `[9]`; afterwards the registry has
an entry under `[9]` that was not there before, so it is not true that the
entry of `alpha` is the only new one. -/
theorem storeAndInitContract_success_counterexample :
    (registry sampleImports sampleState).HasAt (registryKey sampleImports alpha) = false
    ∧ (initCall sampleImports (sampleSandbox sampleState hostDeploysAnother) alpha []).2.2 = none
    ∧ (registry sampleImports
        (initCall sampleImports (sampleSandbox sampleState hostDeploysAnother) alpha []).1).GetAt
        (registryKey sampleImports alpha)
        = (registry sampleImports (registered sampleImports sampleState alpha)).GetAt
            (registryKey sampleImports alpha)
    ∧ ¬ ((storeAndInitContract sampleImports
          (sampleSandbox sampleState hostDeploysAnother) alpha []).2 = none
        ∧ ∀ k, (registry sampleImports (storeAndInitContract sampleImports
              (sampleSandbox sampleState hostDeploysAnother) alpha []).1.State).GetAt k
            = if k = registryKey sampleImports alpha
              then some (sampleImports.EncodeContractRecord alpha)
              else (registry sampleImports sampleState).GetAt k) := by
  refine ⟨by decide, by decide, by decide, ?_⟩
  rintro ⟨_, h⟩
  have h9 := h [9]
  revert h9
  decide

/-- C4, amended: when the identifier of the record is not in the registry, the
`init` call succeeds and the call leaves the whole contract registry as it was
handed (the new entry and every other one), `storeAndInitContract` returns no
error; afterwards the registry enumerates the elements it had before followed
by one new element, the encoded record under the key of `Hn(rec.Name)`; a
lookup of that key gives the encoded record and a lookup of any other key gives
what it gave before; the registry is one element longer. -/
theorem storeAndInitContract_success (env : Imports) (ctx : Sandbox) (rec : ContractRecord)
    (initParams : Dict)
    (habsent : (registry env ctx.State).HasAt (registryKey env rec) = false)
    (hsucc : (initCall env ctx rec initParams).2.2 = none)
    (hframe : (registry env (initCall env ctx rec initParams).1).elems
      = (registry env (registered env ctx.State rec)).elems) :
    (storeAndInitContract env ctx rec initParams).2 = none
    ∧ (registry env (storeAndInitContract env ctx rec initParams).1.State).elems
        = (registry env ctx.State).elems
          ++ [(registryKey env rec, env.EncodeContractRecord rec)]
    ∧ (∀ k, (registry env (storeAndInitContract env ctx rec initParams).1.State).GetAt k
        = if k = registryKey env rec then some (env.EncodeContractRecord rec)
          else (registry env ctx.State).GetAt k)
    ∧ (registry env (storeAndInitContract env ctx rec initParams).1.State).Len
        = (registry env ctx.State).Len + 1 := by
  rw [storeAndInitContract_of_succeeds env ctx rec initParams habsent hsucc]
  have helems : (registry env (initCall env ctx rec initParams).1).elems
      = (registry env ctx.State).elems
        ++ [(registryKey env rec, env.EncodeContractRecord rec)] := by
    rw [hframe]
    exact MustMap.elems_setAt_of_hasAt_eq_false (registry env ctx.State) _ _ habsent
  refine ⟨rfl, helems, ?_, ?_⟩
  · intro k
    show (registry env (initCall env ctx rec initParams).1).GetAt k = _
    rw [MustMap.getAt_eq_find_elems, hframe, ← MustMap.getAt_eq_find_elems]
    by_cases hk : k = registryKey env rec
    · rw [if_pos hk, hk]
      exact KVStore.get_set_self ctx.State _ _
    · rw [if_neg hk]
      have hne : (registry env ctx.State).elemKey k
          ≠ (registry env ctx.State).elemKey (registryKey env rec) :=
        fun e => hk (MustMap.elemKey_inj _ _ _ e)
      exact KVStore.get_set_of_ne ctx.State _ _ _ hne
  · show (registry env (initCall env ctx rec initParams).1).elems.length = _
    rw [helems]
    simp [MustMap.Len]

/-- C4 amended, on a sample: deploying `alpha` into the sample state with a
host that succeeds and leaves the state as handed. -/
theorem storeAndInitContract_success_witness :
    (storeAndInitContract sampleImports (sampleSandbox sampleState hostSucceeds) alpha []).2 = none
    ∧ (registry sampleImports
        (storeAndInitContract sampleImports (sampleSandbox sampleState hostSucceeds) alpha []).1.State).elems
        = (registry sampleImports sampleState).elems
          ++ [(registryKey sampleImports alpha, sampleImports.EncodeContractRecord alpha)]
    ∧ (∀ k, (registry sampleImports
        (storeAndInitContract sampleImports (sampleSandbox sampleState hostSucceeds) alpha []).1.State).GetAt k
        = if k = registryKey sampleImports alpha
          then some (sampleImports.EncodeContractRecord alpha)
          else (registry sampleImports sampleState).GetAt k)
    ∧ (registry sampleImports
        (storeAndInitContract sampleImports (sampleSandbox sampleState hostSucceeds) alpha []).1.State).Len
        = (registry sampleImports sampleState).Len + 1 :=
  storeAndInitContract_success sampleImports (sampleSandbox sampleState hostSucceeds) alpha []
    (by decide) (by decide) (by decide)

/-- C5: a retried deployment is indistinguishable from a first attempt. Let the
identifier of the record be absent from the registry of the state of `ctx`, let
a first `storeAndInitContract` fail at `init` with the failing call leaving the
state it was handed unchanged, and let a second `storeAndInitContract` of the
same record, run in the sandbox the first one left with the host behaving as
`host2`, have a succeeding `init`. Then the second call returns no error, and
its resulting state is the resulting state of the same deployment run directly
on the initial state, which returns no error either. -/
theorem storeAndInitContract_retry (env : Imports) (ctx : Sandbox) (rec : ContractRecord)
    (initParams1 initParams2 : Dict)
    (host2 : Hname → Hname → Dict → Option ColoredBalances → KVStore →
      KVStore × Dict × Option Err)
    (habsent : (registry env ctx.State).HasAt (registryKey env rec) = false)
    (hfail : (initCall env ctx rec initParams1).2.2 ≠ none)
    (hsame : (initCall env ctx rec initParams1).1 = registered env ctx.State rec)
    (hsucc : (initCall env
      { (storeAndInitContract env ctx rec initParams1).1 with host := host2 }
      rec initParams2).2.2 = none) :
    (storeAndInitContract env
        { (storeAndInitContract env ctx rec initParams1).1 with host := host2 }
        rec initParams2).2 = none
    ∧ (storeAndInitContract env
        { (storeAndInitContract env ctx rec initParams1).1 with host := host2 }
        rec initParams2).1.State
      = (storeAndInitContract env { ctx with host := host2 } rec initParams2).1.State
    ∧ (storeAndInitContract env { ctx with host := host2 } rec initParams2).2 = none := by
  obtain ⟨cause, hc⟩ := Option.ne_none_iff_exists'.mp hfail
  have hstate : (storeAndInitContract env ctx rec initParams1).1.State = ctx.State := by
    rw [storeAndInitContract_of_fails env ctx rec initParams1 cause habsent hc, hsame]
    exact KVStore.del_set_of_has_eq_false ctx.State _ _ habsent
  have habsent2 : (registry env
      ({ (storeAndInitContract env ctx rec initParams1).1 with host := host2 } :
        Sandbox).State).HasAt (registryKey env rec) = false := by
    show (registry env (storeAndInitContract env ctx rec initParams1).1.State).HasAt _ = false
    rw [hstate]
    exact habsent
  have hsucc' : (initCall env { ctx with host := host2 } rec initParams2).2.2 = none := by
    have h := hsucc
    simp only [initCall, hstate] at h ⊢
    exact h
  rw [storeAndInitContract_of_succeeds env _ rec initParams2 habsent2 hsucc,
    storeAndInitContract_of_succeeds env { ctx with host := host2 } rec initParams2 habsent hsucc']
  refine ⟨rfl, ?_, rfl⟩
  simp only [initCall, hstate]

/-- C5, on a sample: `alpha` fails to deploy into the sample state with the
failing host and is then deployed with the succeeding host. -/
theorem storeAndInitContract_retry_witness :
    (storeAndInitContract sampleImports
        { (storeAndInitContract sampleImports (sampleSandbox sampleState hostFails) alpha []).1
            with host := hostSucceeds }
        alpha [([1], [2])]).2 = none
    ∧ (storeAndInitContract sampleImports
        { (storeAndInitContract sampleImports (sampleSandbox sampleState hostFails) alpha []).1
            with host := hostSucceeds }
        alpha [([1], [2])]).1.State
      = (storeAndInitContract sampleImports
          { sampleSandbox sampleState hostFails with host := hostSucceeds }
          alpha [([1], [2])]).1.State
    ∧ (storeAndInitContract sampleImports
          { sampleSandbox sampleState hostFails with host := hostSucceeds }
          alpha [([1], [2])]).2 = none :=
  storeAndInitContract_retry sampleImports (sampleSandbox sampleState hostFails) alpha
    [] [([1], [2])] hostSucceeds (by decide) (by decide) (by decide) (by decide)

/-! ## Authorization: `isAuthorizedToDeploy` -/

/-- C6: a caller equal to the chain owner is authorized, whatever the form of
the caller, the current chain and the contents of the state. -/
theorem isAuthorizedToDeploy_owner (env : Imports) (ctx : Sandbox)
    (howner : ctx.Caller = ctx.ChainOwnerID) :
    isAuthorizedToDeploy env ctx = some true := by
  simp [isAuthorizedToDeploy, howner]

/-- C6, on a sample: the chain owner is a contract of another chain and the
authorization list is empty. -/
theorem isAuthorizedToDeploy_owner_witness :
    isAuthorizedToDeploy sampleImports
      (authSandbox (.contract [8] 2) (.contract [8] 2) [7] ⟨[]⟩) = some true :=
  isAuthorizedToDeploy_owner sampleImports
    (authSandbox (.contract [8] 2) (.contract [8] 2) [7] ⟨[]⟩) (by decide)

/-- C7, as stated, fails: the caller is the contract `2` of chain `[8]`, the
current chain is `[7]`, and the caller is the chain owner; the check returns
true. -/
theorem isAuthorizedToDeploy_cross_chain_counterexample :
    (authSandbox (.contract [8] 2) (.contract [8] 2) [7] ⟨[]⟩).Caller.MustContractID
        = some ⟨[8], 2⟩
    ∧ (⟨[8], 2⟩ : ContractID).ChainID
        ≠ (authSandbox (.contract [8] 2) (.contract [8] 2) [7] ⟨[]⟩).ChainID
    ∧ isAuthorizedToDeploy sampleImports
        (authSandbox (.contract [8] 2) (.contract [8] 2) [7] ⟨[]⟩) = some true := by
  decide

/-- C7, amended: a caller that denotes a contract of a chain other than the
current one, and that is not the chain owner, is not authorized. -/
theorem isAuthorizedToDeploy_cross_chain (env : Imports) (ctx : Sandbox) (cid : ContractID)
    (hcontract : ctx.Caller.MustContractID = some cid)
    (hchain : cid.ChainID ≠ ctx.ChainID)
    (hnotOwner : ctx.Caller ≠ ctx.ChainOwnerID) :
    isAuthorizedToDeploy env ctx = some false := by
  have haddr : ctx.Caller.IsAddress = false := by
    cases hc : ctx.Caller with
    | address a => rw [hc] at hcontract; simp [AgentID.MustContractID] at hcontract
    | contract c h => rfl
  simp [isAuthorizedToDeploy, hnotOwner, haddr, hcontract, hchain]

/-- C7 amended, on a sample: a contract of chain `[8]` calls on chain `[7]`,
whose owner is an address; the caller's bytes are even in the authorization
list. -/
theorem isAuthorizedToDeploy_cross_chain_witness :
    isAuthorizedToDeploy sampleImports
      (authSandbox (.contract [8] 2) (.address [1]) [7] ⟨[([100, 1, 2, 8], [])]⟩) = some false :=
  isAuthorizedToDeploy_cross_chain sampleImports
    (authSandbox (.contract [8] 2) (.address [1]) [7] ⟨[([100, 1, 2, 8], [])]⟩) ⟨[8], 2⟩
    (by decide) (by decide) (by decide)

/-- C8: for a caller that is not the chain owner and does not denote an
address, the caller denotes a contract, and the check returns true exactly when
the chain of that contract is the current chain; the result is the same for
every state, so it does not depend on the authorization list. -/
theorem isAuthorizedToDeploy_contract (env : Imports) (ctx : Sandbox)
    (hnotOwner : ctx.Caller ≠ ctx.ChainOwnerID)
    (hnotAddress : ctx.Caller.IsAddress = false) :
    ∃ cid, ctx.Caller.MustContractID = some cid
      ∧ (isAuthorizedToDeploy env ctx = some true ↔ cid.ChainID = ctx.ChainID)
      ∧ (isAuthorizedToDeploy env ctx = some false ↔ cid.ChainID ≠ ctx.ChainID)
      ∧ ∀ s : KVStore,
          isAuthorizedToDeploy env { ctx with State := s } = isAuthorizedToDeploy env ctx := by
  cases ctx with
  | mk Caller ChainOwnerID ChainID State host calls =>
    cases Caller with
    | address a => simp [AgentID.IsAddress] at hnotAddress
    | contract c h =>
      have hne : ¬ AgentID.contract c h = ChainOwnerID := hnotOwner
      refine ⟨⟨c, h⟩, rfl, ?_, ?_, ?_⟩
      · simp [isAuthorizedToDeploy, hne, AgentID.MustContractID, AgentID.IsAddress]
      · simp [isAuthorizedToDeploy, hne, AgentID.MustContractID, AgentID.IsAddress]
      · intro s
        simp [isAuthorizedToDeploy, hne, AgentID.MustContractID, AgentID.IsAddress]

/-- C8, on a sample: a contract of the current chain `[7]` that is not the
chain owner. -/
theorem isAuthorizedToDeploy_contract_witness :
    ∃ cid, (authSandbox (.contract [7] 2) (.address [1]) [7] ⟨[]⟩).Caller.MustContractID = some cid
      ∧ (isAuthorizedToDeploy sampleImports
            (authSandbox (.contract [7] 2) (.address [1]) [7] ⟨[]⟩) = some true
          ↔ cid.ChainID = (authSandbox (.contract [7] 2) (.address [1]) [7] ⟨[]⟩).ChainID)
      ∧ (isAuthorizedToDeploy sampleImports
            (authSandbox (.contract [7] 2) (.address [1]) [7] ⟨[]⟩) = some false
          ↔ cid.ChainID ≠ (authSandbox (.contract [7] 2) (.address [1]) [7] ⟨[]⟩).ChainID)
      ∧ ∀ s : KVStore,
          isAuthorizedToDeploy sampleImports
              { authSandbox (.contract [7] 2) (.address [1]) [7] ⟨[]⟩ with State := s }
            = isAuthorizedToDeploy sampleImports
                (authSandbox (.contract [7] 2) (.address [1]) [7] ⟨[]⟩) :=
  isAuthorizedToDeploy_contract sampleImports
    (authSandbox (.contract [7] 2) (.address [1]) [7] ⟨[]⟩) (by decide) (by decide)

/-- C9: for a caller that denotes an address and is not the chain owner, the
check returns true exactly when the deployment authorization list has some
value stored under the caller's bytes, and false exactly when it has none. -/
theorem isAuthorizedToDeploy_address (env : Imports) (ctx : Sandbox)
    (hnotOwner : ctx.Caller ≠ ctx.ChainOwnerID)
    (haddress : ctx.Caller.IsAddress = true) :
    (isAuthorizedToDeploy env ctx = some true ↔
      ∃ v, (NewMustMap ctx.State env.VarDeployAuthorisations).GetAt
        (env.AgentIDBytes ctx.Caller) = some v)
    ∧ (isAuthorizedToDeploy env ctx = some false ↔
      (NewMustMap ctx.State env.VarDeployAuthorisations).GetAt
        (env.AgentIDBytes ctx.Caller) = none) := by
  have hget : ∀ (s : KVStore) (k : Key), s.Has k = (s.Get k).isSome := by
    intro s k
    simp only [KVStore.Has, KVStore.Get, Option.isSome_map']
    rw [Bool.eq_iff_iff, List.find?_isSome, List.any_eq_true]
  simp only [isAuthorizedToDeploy, hnotOwner, haddress, if_false, Bool.not_true,
    Bool.false_eq_true, Option.some.injEq, MustMap.HasAt, MustMap.GetAt, hget]
  constructor
  · exact Option.isSome_iff_exists
  · simp

/-- C9, on a sample: the address `[3]` is in the authorization list with an
empty value, and the chain owner is the address `[1]`. -/
theorem isAuthorizedToDeploy_address_witness :
    (isAuthorizedToDeploy sampleImports
        (authSandbox (.address [3]) (.address [1]) [7] authState) = some true ↔
      ∃ v, (NewMustMap (authSandbox (.address [3]) (.address [1]) [7] authState).State
        sampleImports.VarDeployAuthorisations).GetAt
        (sampleImports.AgentIDBytes
          (authSandbox (.address [3]) (.address [1]) [7] authState).Caller) = some v)
    ∧ (isAuthorizedToDeploy sampleImports
        (authSandbox (.address [3]) (.address [1]) [7] authState) = some false ↔
      (NewMustMap (authSandbox (.address [3]) (.address [1]) [7] authState).State
        sampleImports.VarDeployAuthorisations).GetAt
        (sampleImports.AgentIDBytes
          (authSandbox (.address [3]) (.address [1]) [7] authState).Caller) = none) :=
  isAuthorizedToDeploy_address sampleImports
    (authSandbox (.address [3]) (.address [1]) [7] authState) (by decide) (by decide)

/-! ## Fees: `GetFeeInfoByContractRecord` -/

/-- C10: fee inheritance and override. In a state whose two default-fee values
decode without error, with `dOwner` and `dValidator` the decoded defaults: for
every record the returned owner fee is `dOwner` when the record's `OwnerFee` is
0 and the record's `OwnerFee` otherwise, and independently the returned
validator fee is `dValidator` when the record's `ValidatorFee` is 0 and the
record's `ValidatorFee` otherwise; for a nil record both returned fees are the
defaults. -/
theorem GetFeeInfoByContractRecord_fees (env : Imports) (state : KVStore)
    (rec : ContractRecord)
    (howner : (env.DecodeInt64 (state.MustGet env.VarDefaultOwnerFee)).2.2 = none)
    (hvalidator : (env.DecodeInt64 (state.MustGet env.VarDefaultValidatorFee)).2.2 = none) :
    (rec.OwnerFee = 0 → (GetFeeInfoByContractRecord env state (some rec)).2.1
        = (env.DecodeInt64 (state.MustGet env.VarDefaultOwnerFee)).1)
    ∧ (rec.OwnerFee ≠ 0 → (GetFeeInfoByContractRecord env state (some rec)).2.1 = rec.OwnerFee)
    ∧ (rec.ValidatorFee = 0 → (GetFeeInfoByContractRecord env state (some rec)).2.2
        = (env.DecodeInt64 (state.MustGet env.VarDefaultValidatorFee)).1)
    ∧ (rec.ValidatorFee ≠ 0 →
        (GetFeeInfoByContractRecord env state (some rec)).2.2 = rec.ValidatorFee)
    ∧ (GetFeeInfoByContractRecord env state none).2.1
        = (env.DecodeInt64 (state.MustGet env.VarDefaultOwnerFee)).1
    ∧ (GetFeeInfoByContractRecord env state none).2.2
        = (env.DecodeInt64 (state.MustGet env.VarDefaultValidatorFee)).1 := by
  have hd : GetDefaultFeeInfo env state =
      ((if !(env.DecodeColor (state.MustGet env.VarFeeColor)).2.1 then env.ColorIOTA
        else (env.DecodeColor (state.MustGet env.VarFeeColor)).1),
       (env.DecodeInt64 (state.MustGet env.VarDefaultOwnerFee)).1,
       (env.DecodeInt64 (state.MustGet env.VarDefaultValidatorFee)).1, none) := by
    simp only [GetDefaultFeeInfo, howner, hvalidator]
  refine ⟨?_, ?_, ?_, ?_, ?_, ?_⟩
  · intro h0
    simp [GetFeeInfoByContractRecord, hd, h0]
  · intro h0
    simp [GetFeeInfoByContractRecord, hd, h0]
  · intro h0
    simp [GetFeeInfoByContractRecord, hd, h0]
  · intro h0
    simp [GetFeeInfoByContractRecord, hd, h0]
  · simp [GetFeeInfoByContractRecord, hd]
  · simp [GetFeeInfoByContractRecord, hd]

/-- C10, on a sample: the sample state has the default fees 10 and 20; `alpha`
has the owner fee 0 and the validator fee 500. -/
theorem GetFeeInfoByContractRecord_fees_witness :
    GetFeeInfoByContractRecord sampleImports sampleState (some alpha) = ([0, 0], 10, 500)
    ∧ GetFeeInfoByContractRecord sampleImports sampleState (some gamma) = ([0, 0], 3, 20)
    ∧ (alpha.OwnerFee = 0 → (GetFeeInfoByContractRecord sampleImports sampleState (some alpha)).2.1
        = (sampleImports.DecodeInt64
            (sampleState.MustGet sampleImports.VarDefaultOwnerFee)).1)
    ∧ (alpha.OwnerFee ≠ 0 →
        (GetFeeInfoByContractRecord sampleImports sampleState (some alpha)).2.1 = alpha.OwnerFee)
    ∧ (alpha.ValidatorFee = 0 →
        (GetFeeInfoByContractRecord sampleImports sampleState (some alpha)).2.2
        = (sampleImports.DecodeInt64
            (sampleState.MustGet sampleImports.VarDefaultValidatorFee)).1)
    ∧ (alpha.ValidatorFee ≠ 0 →
        (GetFeeInfoByContractRecord sampleImports sampleState (some alpha)).2.2
          = alpha.ValidatorFee)
    ∧ (GetFeeInfoByContractRecord sampleImports sampleState none).2.1
        = (sampleImports.DecodeInt64
            (sampleState.MustGet sampleImports.VarDefaultOwnerFee)).1
    ∧ (GetFeeInfoByContractRecord sampleImports sampleState none).2.2
        = (sampleImports.DecodeInt64
            (sampleState.MustGet sampleImports.VarDefaultValidatorFee)).1 :=
  ⟨by decide, by decide,
    GetFeeInfoByContractRecord_fees sampleImports sampleState alpha (by decide) (by decide)⟩

/-! ## Lookup: `FindContract` and `GetFeeInfo` -/

/-- C11, as stated, fails: in `badFeeState` the identifier 9 has no registry
entry, so `FindContract` fails and `GetFeeInfo` returns what
`GetFeeInfoByContractRecord` returns for a nil record; but the default owner
fee does not decode, and the result is the zero color and the fees 0, not the
stored fee color `[6, 6]` and the stored default validator fee 20. -/
theorem GetFeeInfo_lookup_fails_counterexample :
    (FindContract sampleImports badFeeState 9).2 ≠ none
    ∧ GetFeeInfo sampleImports badFeeState 9
        = GetFeeInfoByContractRecord sampleImports badFeeState none
    ∧ sampleImports.DecodeColor (badFeeState.MustGet sampleImports.VarFeeColor)
        = ([6, 6], true, none)
    ∧ sampleImports.DecodeInt64 (badFeeState.MustGet sampleImports.VarDefaultValidatorFee)
        = (20, true, none)
    ∧ GetFeeInfo sampleImports badFeeState 9 = ([0, 0], 0, 0)
    ∧ (GetFeeInfo sampleImports badFeeState 9).1 ≠ [6, 6]
    ∧ (GetFeeInfo sampleImports badFeeState 9).2.2 ≠ 20 := by
  decide

/-- C11, amended: when `FindContract` fails for the identifier, it returns no
record and `GetFeeInfo` returns what `GetFeeInfoByContractRecord` returns for a
nil record; when moreover the two default-fee values of the state decode
without error, this is the chain's fee color (the decoded stored fee color when
its decoder reports `ok`, else `ColorIOTA`), the decoded default owner fee and
the decoded default validator fee. -/
theorem GetFeeInfo_lookup_fails (env : Imports) (state : KVStore) (hname : Hname)
    (hfail : (FindContract env state hname).2 ≠ none) :
    (FindContract env state hname).1 = none
    ∧ GetFeeInfo env state hname = GetFeeInfoByContractRecord env state none
    ∧ ((env.DecodeInt64 (state.MustGet env.VarDefaultOwnerFee)).2.2 = none →
        (env.DecodeInt64 (state.MustGet env.VarDefaultValidatorFee)).2.2 = none →
        GetFeeInfo env state hname
          = ((if (env.DecodeColor (state.MustGet env.VarFeeColor)).2.1
                then (env.DecodeColor (state.MustGet env.VarFeeColor)).1
                else env.ColorIOTA),
              (env.DecodeInt64 (state.MustGet env.VarDefaultOwnerFee)).1,
              (env.DecodeInt64 (state.MustGet env.VarDefaultValidatorFee)).1)) := by
  have hrec : (FindContract env state hname).1 = none := by
    cases hget : (NewMustMap state env.VarContractRegistry).GetAt (env.HnameBytes hname) with
    | none =>
      by_cases hroot : hname = env.InterfaceHname
      · exfalso
        apply hfail
        simp only [FindContract, hget]
        simp [hroot]
      · simp [FindContract, hget, hroot]
    | some retBin =>
      cases hdec : (env.DecodeContractRecord retBin).2 with
      | none =>
        exfalso
        apply hfail
        simp [FindContract, hget, hdec]
      | some e => simp [FindContract, hget, hdec]
  refine ⟨hrec, ?_, ?_⟩
  · simp only [GetFeeInfo, hrec]
  · intro howner hvalidator
    simp only [GetFeeInfo, hrec, GetFeeInfoByContractRecord, GetDefaultFeeInfo, howner,
      hvalidator]
    cases (env.DecodeColor (state.MustGet env.VarFeeColor)).2.1 <;> simp

/-- C11 amended, on a sample: the identifier 9 has no entry in the registry of
`chainState`, whose fee color is `[6, 6]` and whose default fees are 10 and
20. -/
theorem GetFeeInfo_lookup_fails_witness :
    GetFeeInfo sampleImports chainState 9 = ([6, 6], 10, 20)
    ∧ (sampleImports.DecodeInt64
        (chainState.MustGet sampleImports.VarDefaultOwnerFee)).2.2 = none
    ∧ (sampleImports.DecodeInt64
        (chainState.MustGet sampleImports.VarDefaultValidatorFee)).2.2 = none
    ∧ (FindContract sampleImports chainState 9).1 = none
    ∧ GetFeeInfo sampleImports chainState 9
        = GetFeeInfoByContractRecord sampleImports chainState none
    ∧ ((sampleImports.DecodeInt64
          (chainState.MustGet sampleImports.VarDefaultOwnerFee)).2.2 = none →
        (sampleImports.DecodeInt64
          (chainState.MustGet sampleImports.VarDefaultValidatorFee)).2.2 = none →
        GetFeeInfo sampleImports chainState 9
          = ((if (sampleImports.DecodeColor
                  (chainState.MustGet sampleImports.VarFeeColor)).2.1
                then (sampleImports.DecodeColor
                  (chainState.MustGet sampleImports.VarFeeColor)).1
                else sampleImports.ColorIOTA),
              (sampleImports.DecodeInt64
                (chainState.MustGet sampleImports.VarDefaultOwnerFee)).1,
              (sampleImports.DecodeInt64
                (chainState.MustGet sampleImports.VarDefaultValidatorFee)).1)) :=
  ⟨by decide, by decide, by decide,
    GetFeeInfo_lookup_fails sampleImports chainState 9 (by decide)⟩

/-- C12: when the registry has no entry under the identifier of the root
contract, `FindContract` of that identifier returns no error and the record
`NewContractRecord(Interface, AgentID{})`. -/
theorem FindContract_root_bootstrap (env : Imports) (state : KVStore)
    (habsent : (registry env state).GetAt (env.HnameBytes env.InterfaceHname) = none) :
    FindContract env state env.InterfaceHname
      = (some (env.NewContractRecord env.AgentIDZero), none) := by
  simp only [registry] at habsent
  simp [FindContract, habsent]

/-- C12, on a sample: the empty state. -/
theorem FindContract_root_bootstrap_witness :
    FindContract sampleImports ⟨[]⟩ sampleImports.InterfaceHname
      = (some (sampleImports.NewContractRecord sampleImports.AgentIDZero), none) :=
  FindContract_root_bootstrap sampleImports ⟨[]⟩ (by decide)

/-- C13: for an identifier other than the root contract's: when the registry
has no entry under it, `FindContract` returns the "not found" error and no
record; when the registry has an entry, `FindContract` returns the record of
`DecodeContractRecord` on the stored bytes without error when the decode
succeeds, returns the wrapped decode error and no record when it fails, and so
fails exactly when the decode fails. -/
theorem FindContract_other (env : Imports) (state : KVStore) (hname : Hname)
    (hne : hname ≠ env.InterfaceHname) :
    ((registry env state).GetAt (env.HnameBytes hname) = none →
      FindContract env state hname = (none, some (Err.contractNotFound hname)))
    ∧ ∀ retBin, (registry env state).GetAt (env.HnameBytes hname) = some retBin →
        ((env.DecodeContractRecord retBin).2 = none →
          FindContract env state hname = ((env.DecodeContractRecord retBin).1, none))
        ∧ (∀ e, (env.DecodeContractRecord retBin).2 = some e →
          FindContract env state hname = (none, some (Err.wrapped e)))
        ∧ ((FindContract env state hname).2 ≠ none
          ↔ (env.DecodeContractRecord retBin).2 ≠ none) := by
  simp only [registry]
  refine ⟨?_, ?_⟩
  · intro habsent
    simp [FindContract, habsent, hne]
  · intro retBin hget
    refine ⟨?_, ?_, ?_⟩
    · intro hdec
      simp [FindContract, hget, hdec]
    · intro e hdec
      simp [FindContract, hget, hdec]
    · cases hdec : (env.DecodeContractRecord retBin).2 with
      | none => simp [FindContract, hget, hdec]
      | some e => simp [FindContract, hget, hdec]

/-- C13, on a sample: in `brokenRegistryState` the identifier 9 has no entry,
the entry of 6 decodes and the entry of 5 does not. -/
theorem FindContract_other_witness :
    FindContract sampleImports brokenRegistryState 9 = (none, some (Err.contractNotFound 9))
    ∧ FindContract sampleImports brokenRegistryState 5
        = (none, some (Err.wrapped (Err.external "record")))
    ∧ (FindContract sampleImports brokenRegistryState 6).2 = none
    ∧ (((registry sampleImports brokenRegistryState).GetAt (sampleImports.HnameBytes 5) = none →
      FindContract sampleImports brokenRegistryState 5 = (none, some (Err.contractNotFound 5)))
    ∧ ∀ retBin, (registry sampleImports brokenRegistryState).GetAt
          (sampleImports.HnameBytes 5) = some retBin →
        ((sampleImports.DecodeContractRecord retBin).2 = none →
          FindContract sampleImports brokenRegistryState 5
            = ((sampleImports.DecodeContractRecord retBin).1, none))
        ∧ (∀ e, (sampleImports.DecodeContractRecord retBin).2 = some e →
          FindContract sampleImports brokenRegistryState 5 = (none, some (Err.wrapped e)))
        ∧ ((FindContract sampleImports brokenRegistryState 5).2 ≠ none
          ↔ (sampleImports.DecodeContractRecord retBin).2 ≠ none)) :=
  ⟨by decide, by decide, by decide,
    FindContract_other sampleImports brokenRegistryState 5 (by decide)⟩

/-! ## Chain info: `GetChainInfo` -/

theorem GetChainInfo_of_errs (env : Imports) (state : KVStore)
    (h1 : (env.DecodeChainID (state.MustGet env.VarChainID)).2.2 = none)
    (h2 : (env.DecodeAgentID (state.MustGet env.VarChainOwnerID)).2.2 = none)
    (h3 : (env.DecodeColor (state.MustGet env.VarChainColor)).2.2 = none)
    (h4 : (env.DecodeAddress (state.MustGet env.VarChainAddress)).2.2 = none)
    (h5 : (env.DecodeString (state.MustGet env.VarDescription)).2.2 = none)
    (h6 : (env.DecodeColor (state.MustGet env.VarFeeColor)).2.2 = none)
    (h7 : (env.DecodeInt64 (state.MustGet env.VarDefaultOwnerFee)).2.2 = none)
    (h8 : (env.DecodeInt64 (state.MustGet env.VarDefaultValidatorFee)).2.2 = none) :
    GetChainInfo env state =
      (some
        { ChainID := (env.DecodeChainID (state.MustGet env.VarChainID)).1
          ChainOwnerID := (env.DecodeAgentID (state.MustGet env.VarChainOwnerID)).1
          ChainColor := (env.DecodeColor (state.MustGet env.VarChainColor)).1
          ChainAddress := (env.DecodeAddress (state.MustGet env.VarChainAddress)).1
          Description := (env.DecodeString (state.MustGet env.VarDescription)).1
          FeeColor :=
            if (env.DecodeColor (state.MustGet env.VarFeeColor)).2.1
            then (env.DecodeColor (state.MustGet env.VarFeeColor)).1 else env.ColorIOTA
          DefaultOwnerFee :=
            if (env.DecodeInt64 (state.MustGet env.VarDefaultOwnerFee)).2.1
            then (env.DecodeInt64 (state.MustGet env.VarDefaultOwnerFee)).1 else 0
          DefaultValidatorFee :=
            if (env.DecodeInt64 (state.MustGet env.VarDefaultValidatorFee)).2.1
            then (env.DecodeInt64 (state.MustGet env.VarDefaultValidatorFee)).1 else 0 },
       none) := by
  simp only [GetChainInfo, h1, h2, h3, h4, h5, h6, h7, h8]

theorem GetChainInfo_errs_of_succeeds (env : Imports) (state : KVStore)
    (h : (GetChainInfo env state).2 = none) :
    (env.DecodeChainID (state.MustGet env.VarChainID)).2.2 = none
    ∧ (env.DecodeAgentID (state.MustGet env.VarChainOwnerID)).2.2 = none
    ∧ (env.DecodeColor (state.MustGet env.VarChainColor)).2.2 = none
    ∧ (env.DecodeAddress (state.MustGet env.VarChainAddress)).2.2 = none
    ∧ (env.DecodeString (state.MustGet env.VarDescription)).2.2 = none
    ∧ (env.DecodeColor (state.MustGet env.VarFeeColor)).2.2 = none
    ∧ (env.DecodeInt64 (state.MustGet env.VarDefaultOwnerFee)).2.2 = none
    ∧ (env.DecodeInt64 (state.MustGet env.VarDefaultValidatorFee)).2.2 = none := by
  cases h1 : (env.DecodeChainID (state.MustGet env.VarChainID)).2.2 with
  | some e => simp [GetChainInfo, h1] at h
  | none =>
  cases h2 : (env.DecodeAgentID (state.MustGet env.VarChainOwnerID)).2.2 with
  | some e => simp [GetChainInfo, h1, h2] at h
  | none =>
  cases h3 : (env.DecodeColor (state.MustGet env.VarChainColor)).2.2 with
  | some e => simp [GetChainInfo, h1, h2, h3] at h
  | none =>
  cases h4 : (env.DecodeAddress (state.MustGet env.VarChainAddress)).2.2 with
  | some e => simp [GetChainInfo, h1, h2, h3, h4] at h
  | none =>
  cases h5 : (env.DecodeString (state.MustGet env.VarDescription)).2.2 with
  | some e => simp [GetChainInfo, h1, h2, h3, h4, h5] at h
  | none =>
  cases h6 : (env.DecodeColor (state.MustGet env.VarFeeColor)).2.2 with
  | some e => simp [GetChainInfo, h1, h2, h3, h4, h5, h6] at h
  | none =>
  cases h7 : (env.DecodeInt64 (state.MustGet env.VarDefaultOwnerFee)).2.2 with
  | some e => simp [GetChainInfo, h1, h2, h3, h4, h5, h6, h7] at h
  | none =>
  cases h8 : (env.DecodeInt64 (state.MustGet env.VarDefaultValidatorFee)).2.2 with
  | some e => simp [GetChainInfo, h1, h2, h3, h4, h5, h6, h7, h8] at h
  | none => exact ⟨rfl, rfl, rfl, rfl, rfl, rfl, rfl, rfl⟩

theorem GetChainInfo_of_missing_color (env : Imports) (state : KVStore)
    (hmissing : state.MustGet env.VarChainColor = none)
    (hnil : (env.DecodeColor none).2.2 = none)
    (h1 : (env.DecodeChainID (state.MustGet env.VarChainID)).2.2 = none)
    (h2 : (env.DecodeAgentID (state.MustGet env.VarChainOwnerID)).2.2 = none)
    (h4 : (env.DecodeAddress (state.MustGet env.VarChainAddress)).2.2 = none)
    (h5 : (env.DecodeString (state.MustGet env.VarDescription)).2.2 = none)
    (h6 : (env.DecodeColor (state.MustGet env.VarFeeColor)).2.2 = none)
    (h7 : (env.DecodeInt64 (state.MustGet env.VarDefaultOwnerFee)).2.2 = none)
    (h8 : (env.DecodeInt64 (state.MustGet env.VarDefaultValidatorFee)).2.2 = none) :
    (GetChainInfo env state).2 = none ∧ (GetChainInfo env state).1 ≠ none := by
  have h3 : (env.DecodeColor (state.MustGet env.VarChainColor)).2.2 = none := by
    rw [hmissing]
    exact hnil
  rw [GetChainInfo_of_errs env state h1 h2 h3 h4 h5 h6 h7 h8]
  exact ⟨rfl, by simp⟩

/-- C14, as stated, fails: the state `chainStateNoColor` has no value under
the key of the chain color, and `GetChainInfo` succeeds on it and returns a
chain info. The decoder reports the absent value through its `ok` result,
without error, and `GetChainInfo` drops that result for the mandatory
fields. -/
theorem GetChainInfo_mandatory_counterexample :
    chainStateNoColor.Has sampleImports.VarChainColor = false
    ∧ chainStateNoColor.MustGet sampleImports.VarChainColor = none
    ∧ (GetChainInfo sampleImports chainStateNoColor).2 = none
    ∧ (GetChainInfo sampleImports chainStateNoColor).1 ≠ none := by
  decide

/-- C14, amended: when the decode of what the state holds under at least one
of the five keys of the identifier, the owner, the color, the address and the
description (nil for a missing key) returns an error, `GetChainInfo` returns
no chain info and fails with one of these decode errors. -/
theorem GetChainInfo_mandatory (env : Imports) (state : KVStore)
    (herr : ∃ e, some e ∈ mandatoryErrs env state) :
    (GetChainInfo env state).1 = none
    ∧ ∃ e, (GetChainInfo env state).2 = some e ∧ some e ∈ mandatoryErrs env state := by
  cases h1 : (env.DecodeChainID (state.MustGet env.VarChainID)).2.2 with
  | some e => exact ⟨by simp [GetChainInfo, h1], e, by simp [GetChainInfo, h1],
      by simp [mandatoryErrs, h1]⟩
  | none =>
  cases h2 : (env.DecodeAgentID (state.MustGet env.VarChainOwnerID)).2.2 with
  | some e => exact ⟨by simp [GetChainInfo, h1, h2], e, by simp [GetChainInfo, h1, h2],
      by simp [mandatoryErrs, h2]⟩
  | none =>
  cases h3 : (env.DecodeColor (state.MustGet env.VarChainColor)).2.2 with
  | some e => exact ⟨by simp [GetChainInfo, h1, h2, h3], e, by simp [GetChainInfo, h1, h2, h3],
      by simp [mandatoryErrs, h3]⟩
  | none =>
  cases h4 : (env.DecodeAddress (state.MustGet env.VarChainAddress)).2.2 with
  | some e => exact ⟨by simp [GetChainInfo, h1, h2, h3, h4], e,
      by simp [GetChainInfo, h1, h2, h3, h4], by simp [mandatoryErrs, h4]⟩
  | none =>
  cases h5 : (env.DecodeString (state.MustGet env.VarDescription)).2.2 with
  | some e => exact ⟨by simp [GetChainInfo, h1, h2, h3, h4, h5], e,
      by simp [GetChainInfo, h1, h2, h3, h4, h5], by simp [mandatoryErrs, h5]⟩
  | none =>
    exfalso
    obtain ⟨e, he⟩ := herr
    simp [mandatoryErrs, h1, h2, h3, h4, h5] at he

/-- C14 amended, on a sample: the chain color of `chainStateBadColor` does not
decode. -/
theorem GetChainInfo_mandatory_witness :
    (GetChainInfo sampleImports chainStateBadColor).1 = none
    ∧ ∃ e, (GetChainInfo sampleImports chainStateBadColor).2 = some e
        ∧ some e ∈ mandatoryErrs sampleImports chainStateBadColor :=
  GetChainInfo_mandatory sampleImports chainStateBadColor
    ⟨Err.external "color", by decide⟩

/-- C15: let the decoders of colors and of 64-bit integers report an absent
value (nil) with `ok` false and no error, and a value decoded without error
with `ok` true. Then an error of `GetChainInfo` is the error of one of the five
mandatory decodes or the decode error of a value that is present under the key
of the fee color or of a default fee, never that of an absent one; and when
`GetChainInfo` succeeds, the fee color of its chain info is the decoded stored
fee color when the key is present and `ColorIOTA` when it is absent, and each
of the two default fees is the decoded stored value when its key is present and
0 when it is absent. -/
theorem GetChainInfo_optional (env : Imports) (state : KVStore)
    (hnilColor : (env.DecodeColor none).2 = (false, none))
    (hnilInt : (env.DecodeInt64 none).2 = (false, none))
    (hokColor : ∀ b, (env.DecodeColor (some b)).2.2 = none →
      (env.DecodeColor (some b)).2.1 = true)
    (hokInt : ∀ b, (env.DecodeInt64 (some b)).2.2 = none →
      (env.DecodeInt64 (some b)).2.1 = true) :
    (∀ e, (GetChainInfo env state).2 = some e →
      some e ∈ mandatoryErrs env state
      ∨ (∃ b, state.MustGet env.VarFeeColor = some b
          ∧ (env.DecodeColor (some b)).2.2 = some e)
      ∨ (∃ b, state.MustGet env.VarDefaultOwnerFee = some b
          ∧ (env.DecodeInt64 (some b)).2.2 = some e)
      ∨ (∃ b, state.MustGet env.VarDefaultValidatorFee = some b
          ∧ (env.DecodeInt64 (some b)).2.2 = some e))
    ∧ ((GetChainInfo env state).2 = none →
      ∃ info, (GetChainInfo env state).1 = some info
        ∧ (∀ b, state.MustGet env.VarFeeColor = some b →
            info.FeeColor = (env.DecodeColor (some b)).1)
        ∧ (state.MustGet env.VarFeeColor = none → info.FeeColor = env.ColorIOTA)
        ∧ (∀ b, state.MustGet env.VarDefaultOwnerFee = some b →
            info.DefaultOwnerFee = (env.DecodeInt64 (some b)).1)
        ∧ (state.MustGet env.VarDefaultOwnerFee = none → info.DefaultOwnerFee = 0)
        ∧ (∀ b, state.MustGet env.VarDefaultValidatorFee = some b →
            info.DefaultValidatorFee = (env.DecodeInt64 (some b)).1)
        ∧ (state.MustGet env.VarDefaultValidatorFee = none →
            info.DefaultValidatorFee = 0)) := by
  have hcE : (env.DecodeColor none).2.2 = none := by rw [hnilColor]
  have hcO : (env.DecodeColor none).2.1 = false := by rw [hnilColor]
  have hiE : (env.DecodeInt64 none).2.2 = none := by rw [hnilInt]
  have hiO : (env.DecodeInt64 none).2.1 = false := by rw [hnilInt]
  constructor
  · intro e he
    by_cases hm : ∃ e, some e ∈ mandatoryErrs env state
    · obtain ⟨_, e', he', hmem⟩ := GetChainInfo_mandatory env state hm
      rw [he] at he'
      cases he'
      exact Or.inl hmem
    · right
      have h1 : (env.DecodeChainID (state.MustGet env.VarChainID)).2.2 = none := by
        cases h : (env.DecodeChainID (state.MustGet env.VarChainID)).2.2 with
        | none => rfl
        | some e => exact absurd ⟨e, by simp [mandatoryErrs, h]⟩ hm
      have h2 : (env.DecodeAgentID (state.MustGet env.VarChainOwnerID)).2.2 = none := by
        cases h : (env.DecodeAgentID (state.MustGet env.VarChainOwnerID)).2.2 with
        | none => rfl
        | some e => exact absurd ⟨e, by simp [mandatoryErrs, h]⟩ hm
      have h3 : (env.DecodeColor (state.MustGet env.VarChainColor)).2.2 = none := by
        cases h : (env.DecodeColor (state.MustGet env.VarChainColor)).2.2 with
        | none => rfl
        | some e => exact absurd ⟨e, by simp [mandatoryErrs, h]⟩ hm
      have h4 : (env.DecodeAddress (state.MustGet env.VarChainAddress)).2.2 = none := by
        cases h : (env.DecodeAddress (state.MustGet env.VarChainAddress)).2.2 with
        | none => rfl
        | some e => exact absurd ⟨e, by simp [mandatoryErrs, h]⟩ hm
      have h5 : (env.DecodeString (state.MustGet env.VarDescription)).2.2 = none := by
        cases h : (env.DecodeString (state.MustGet env.VarDescription)).2.2 with
        | none => rfl
        | some e => exact absurd ⟨e, by simp [mandatoryErrs, h]⟩ hm
      cases h6 : (env.DecodeColor (state.MustGet env.VarFeeColor)).2.2 with
      | some e6 =>
        have he6 : e = e6 := by simpa [GetChainInfo, h1, h2, h3, h4, h5, h6] using he.symm
        left
        cases hg : state.MustGet env.VarFeeColor with
        | none => rw [hg, hcE] at h6; cases h6
        | some b => exact ⟨b, rfl, by rw [he6, ← h6, hg]⟩
      | none =>
      right
      cases h7 : (env.DecodeInt64 (state.MustGet env.VarDefaultOwnerFee)).2.2 with
      | some e7 =>
        have he7 : e = e7 := by simpa [GetChainInfo, h1, h2, h3, h4, h5, h6, h7] using he.symm
        left
        cases hg : state.MustGet env.VarDefaultOwnerFee with
        | none => rw [hg, hiE] at h7; cases h7
        | some b => exact ⟨b, rfl, by rw [he7, ← h7, hg]⟩
      | none =>
      right
      cases h8 : (env.DecodeInt64 (state.MustGet env.VarDefaultValidatorFee)).2.2 with
      | some e8 =>
        have he8 : e = e8 := by
          simpa [GetChainInfo, h1, h2, h3, h4, h5, h6, h7, h8] using he.symm
        cases hg : state.MustGet env.VarDefaultValidatorFee with
        | none => rw [hg, hiE] at h8; cases h8
        | some b => exact ⟨b, rfl, by rw [he8, ← h8, hg]⟩
      | none =>
        rw [GetChainInfo_of_errs env state h1 h2 h3 h4 h5 h6 h7 h8] at he
        cases he
  · intro hsucc
    obtain ⟨h1, h2, h3, h4, h5, h6, h7, h8⟩ := GetChainInfo_errs_of_succeeds env state hsucc
    rw [GetChainInfo_of_errs env state h1 h2 h3 h4 h5 h6 h7 h8]
    refine ⟨_, rfl, ?_, ?_, ?_, ?_, ?_, ?_⟩
    · intro b hb
      rw [hb] at h6
      simp only [hb, hokColor b h6, if_true]
    · intro hb
      simp only [hb, hcO, Bool.false_eq_true, if_false]
    · intro b hb
      rw [hb] at h7
      simp only [hb, hokInt b h7, if_true]
    · intro hb
      simp only [hb, hiO, Bool.false_eq_true, if_false]
    · intro b hb
      rw [hb] at h8
      simp only [hb, hokInt b h8, if_true]
    · intro hb
      simp only [hb, hiO, Bool.false_eq_true, if_false]

/-- C15, on a sample: `chainStateNoFees` has the five mandatory variables
only and gives the fee color `ColorIOTA` and the default fees 0; `chainState`
gives the stored fee color `[6, 6]` and the stored default fees 10 and 20. -/
theorem GetChainInfo_optional_witness :
    (GetChainInfo sampleImports chainStateNoFees).1.map
        (fun i => (i.FeeColor, i.DefaultOwnerFee, i.DefaultValidatorFee))
      = some (sampleImports.ColorIOTA, 0, 0)
    ∧ (GetChainInfo sampleImports chainState).1.map
        (fun i => (i.FeeColor, i.DefaultOwnerFee, i.DefaultValidatorFee))
      = some ([6, 6], 10, 20)
    ∧ (∀ e, (GetChainInfo sampleImports chainStateNoFees).2 = some e →
      some e ∈ mandatoryErrs sampleImports chainStateNoFees
      ∨ (∃ b, chainStateNoFees.MustGet sampleImports.VarFeeColor = some b
          ∧ (sampleImports.DecodeColor (some b)).2.2 = some e)
      ∨ (∃ b, chainStateNoFees.MustGet sampleImports.VarDefaultOwnerFee = some b
          ∧ (sampleImports.DecodeInt64 (some b)).2.2 = some e)
      ∨ (∃ b, chainStateNoFees.MustGet sampleImports.VarDefaultValidatorFee = some b
          ∧ (sampleImports.DecodeInt64 (some b)).2.2 = some e))
    ∧ ((GetChainInfo sampleImports chainStateNoFees).2 = none →
      ∃ info, (GetChainInfo sampleImports chainStateNoFees).1 = some info
        ∧ (∀ b, chainStateNoFees.MustGet sampleImports.VarFeeColor = some b →
            info.FeeColor = (sampleImports.DecodeColor (some b)).1)
        ∧ (chainStateNoFees.MustGet sampleImports.VarFeeColor = none →
            info.FeeColor = sampleImports.ColorIOTA)
        ∧ (∀ b, chainStateNoFees.MustGet sampleImports.VarDefaultOwnerFee = some b →
            info.DefaultOwnerFee = (sampleImports.DecodeInt64 (some b)).1)
        ∧ (chainStateNoFees.MustGet sampleImports.VarDefaultOwnerFee = none →
            info.DefaultOwnerFee = 0)
        ∧ (∀ b, chainStateNoFees.MustGet sampleImports.VarDefaultValidatorFee = some b →
            info.DefaultValidatorFee = (sampleImports.DecodeInt64 (some b)).1)
        ∧ (chainStateNoFees.MustGet sampleImports.VarDefaultValidatorFee = none →
            info.DefaultValidatorFee = 0)) :=
  ⟨by decide, by decide,
    GetChainInfo_optional sampleImports chainStateNoFees (by decide) (by decide)
      (fun b h => by
        simp only [sampleImports] at h ⊢
        split at h <;> simp_all)
      (fun b h => by
        simp only [sampleImports] at h ⊢
        split at h <;> simp_all)⟩

/-- C20: let the decoder of 64-bit integers return the value 0 whenever it
reports `ok` false. Then on every state on which `GetChainInfo` succeeds,
`GetDefaultFeeInfo` succeeds too and returns the fee color, the default owner
fee and the default validator fee of the chain info that `GetChainInfo`
returns; these are also the fees `GetFeeInfoByContractRecord` returns for a nil
record. -/
theorem GetDefaultFeeInfo_agrees (env : Imports) (state : KVStore)
    (hzero : ∀ b, (env.DecodeInt64 b).2.1 = false → (env.DecodeInt64 b).1 = 0)
    (hsucc : (GetChainInfo env state).2 = none) :
    ∃ info, (GetChainInfo env state).1 = some info
      ∧ GetDefaultFeeInfo env state
          = (info.FeeColor, info.DefaultOwnerFee, info.DefaultValidatorFee, none)
      ∧ GetFeeInfoByContractRecord env state none
          = (info.FeeColor, info.DefaultOwnerFee, info.DefaultValidatorFee) := by
  obtain ⟨h1, h2, h3, h4, h5, h6, h7, h8⟩ := GetChainInfo_errs_of_succeeds env state hsucc
  rw [GetChainInfo_of_errs env state h1 h2 h3 h4 h5 h6 h7 h8]
  have hd : GetDefaultFeeInfo env state =
      ((if (env.DecodeColor (state.MustGet env.VarFeeColor)).2.1
          then (env.DecodeColor (state.MustGet env.VarFeeColor)).1 else env.ColorIOTA),
        (if (env.DecodeInt64 (state.MustGet env.VarDefaultOwnerFee)).2.1
          then (env.DecodeInt64 (state.MustGet env.VarDefaultOwnerFee)).1 else 0),
        (if (env.DecodeInt64 (state.MustGet env.VarDefaultValidatorFee)).2.1
          then (env.DecodeInt64 (state.MustGet env.VarDefaultValidatorFee)).1 else 0),
        none) := by
    simp only [GetDefaultFeeInfo, h7, h8]
    have hc : (if (!(env.DecodeColor (state.MustGet env.VarFeeColor)).2.1) = true
          then env.ColorIOTA else (env.DecodeColor (state.MustGet env.VarFeeColor)).1)
        = (if (env.DecodeColor (state.MustGet env.VarFeeColor)).2.1 = true
          then (env.DecodeColor (state.MustGet env.VarFeeColor)).1 else env.ColorIOTA) := by
      cases (env.DecodeColor (state.MustGet env.VarFeeColor)).2.1 <;> rfl
    have ho : (env.DecodeInt64 (state.MustGet env.VarDefaultOwnerFee)).1
        = (if (env.DecodeInt64 (state.MustGet env.VarDefaultOwnerFee)).2.1 = true
          then (env.DecodeInt64 (state.MustGet env.VarDefaultOwnerFee)).1 else 0) := by
      cases hb : (env.DecodeInt64 (state.MustGet env.VarDefaultOwnerFee)).2.1
      · simpa using hzero _ hb
      · simp
    have hv : (env.DecodeInt64 (state.MustGet env.VarDefaultValidatorFee)).1
        = (if (env.DecodeInt64 (state.MustGet env.VarDefaultValidatorFee)).2.1 = true
          then (env.DecodeInt64 (state.MustGet env.VarDefaultValidatorFee)).1 else 0) := by
      cases hb : (env.DecodeInt64 (state.MustGet env.VarDefaultValidatorFee)).2.1
      · simpa using hzero _ hb
      · simp
    rw [hc, ← ho, ← hv]
  refine ⟨_, rfl, hd, ?_⟩
  simp only [GetFeeInfoByContractRecord, hd]
  simp

/-- C20, on a sample: on `chainState` both readers give the fee color
`[6, 6]` and the default fees 10 and 20. -/
theorem GetDefaultFeeInfo_agrees_witness :
    GetDefaultFeeInfo sampleImports chainState = ([6, 6], 10, 20, none)
    ∧ ∃ info, (GetChainInfo sampleImports chainState).1 = some info
      ∧ GetDefaultFeeInfo sampleImports chainState
          = (info.FeeColor, info.DefaultOwnerFee, info.DefaultValidatorFee, none)
      ∧ GetFeeInfoByContractRecord sampleImports chainState none
          = (info.FeeColor, info.DefaultOwnerFee, info.DefaultValidatorFee) :=
  ⟨by decide,
    GetDefaultFeeInfo_agrees sampleImports chainState
      (fun b h => by
        simp only [sampleImports] at h ⊢
        split at h <;> simp_all)
      (by decide)⟩

/-! ## Enumeration: `DecodeContractRegistry` -/

theorem RecordMap.get_set (m : RecordMap) (k k' : Hname) (v : Option ContractRecord) :
    (m.set k v).get k' = if k' = k then some v else m.get k' := by
  cases m with
  | mk es =>
    simp only [RecordMap.set, RecordMap.get, List.find?_append]
    induction es with
    | nil =>
      by_cases h : k' = k
      · simp [h]
      · simp [h, Ne.symm h]
    | cons p es ih =>
      by_cases hp : p.1 = k
      · have hf : (p :: es).filter (fun p => !(p.1 == k))
            = es.filter (fun p => !(p.1 == k)) :=
          List.filter_cons_of_neg (by simp [hp])
        rw [hf, ih]
        by_cases h : k' = k
        · simp [h]
        · have hpk : (p.1 == k') = false := by
            rw [beq_eq_false_iff_ne]
            exact fun e => h (e.symm.trans hp)
          simp [h, List.find?_cons, hpk]
      · have hf : (p :: es).filter (fun p => !(p.1 == k))
            = p :: es.filter (fun p => !(p.1 == k)) :=
          List.filter_cons_of_pos (by simp [hp])
        rw [hf]
        by_cases hq : p.1 = k'
        · have hne : ¬ k' = k := fun e => hp (hq.trans e)
          simp [List.find?_cons, hq, hne]
        · have hpk : (p.1 == k') = false := by
            rw [beq_eq_false_iff_ne]
            exact hq
          simp only [List.find?_cons, hpk]
          exact ih

theorem decodeRegistryEntry_of_ok (env : Imports) (p : Bytes × Bytes)
    (st : RecordMap × Option Err) (h : entryErr env p = none) :
    decodeRegistryEntry env p.1 p.2 st
      = ((st.1.set (decodedEntry env p).1 (decodedEntry env p).2, none), true) := by
  unfold entryErr at h
  cases hk : (env.NewHnameFromBytes p.1).2 with
  | some e => simp [hk] at h
  | none =>
    simp only [hk] at h
    simp [decodeRegistryEntry, hk, h, decodedEntry]

theorem decodeRegistryEntry_of_err (env : Imports) (p : Bytes × Bytes)
    (st : RecordMap × Option Err) (e : Err) (h : entryErr env p = some e) :
    decodeRegistryEntry env p.1 p.2 st = ((st.1, some e), false) := by
  unfold entryErr at h
  cases hk : (env.NewHnameFromBytes p.1).2 with
  | some e' =>
    simp only [hk, Option.some.injEq] at h
    simp [decodeRegistryEntry, hk, h]
  | none =>
    simp only [hk] at h
    simp [decodeRegistryEntry, hk, h]

theorem iterateElems_of_ok (env : Imports) (l : List (Bytes × Bytes)) (m : RecordMap)
    (h : ∀ p ∈ l, entryErr env p = none) :
    iterateElems (decodeRegistryEntry env) l (m, none) = (assignAll env l m, none) := by
  induction l generalizing m with
  | nil => rfl
  | cons p l ih =>
    have hp := decodeRegistryEntry_of_ok env p (m, none) (h p (List.mem_cons_self _ _))
    simp only [iterateElems, hp, if_true, assignAll, List.foldl_cons]
    exact ih _ (fun q hq => h q (List.mem_cons_of_mem _ hq))

theorem iterateElems_of_err (env : Imports) (pre post : List (Bytes × Bytes))
    (x : Bytes × Bytes) (e : Err) (m : RecordMap)
    (hpre : ∀ p ∈ pre, entryErr env p = none) (hx : entryErr env x = some e) :
    iterateElems (decodeRegistryEntry env) (pre ++ x :: post) (m, none)
      = (assignAll env pre m, some e) := by
  induction pre generalizing m with
  | nil =>
    have hp := decodeRegistryEntry_of_err env x (m, none) e hx
    simp [iterateElems, hp, assignAll]
  | cons p pre ih =>
    have hp := decodeRegistryEntry_of_ok env p (m, none) (hpre p (List.mem_cons_self _ _))
    simp only [List.cons_append, iterateElems, hp, if_true, assignAll, List.foldl_cons]
    exact ih _ (fun q hq => hpre q (List.mem_cons_of_mem _ hq))

theorem assignAll_get_ne_none (env : Imports) (l : List (Bytes × Bytes)) (m : RecordMap)
    (h : Hname) :
    (assignAll env l m).get h ≠ none ↔
      m.get h ≠ none ∨ ∃ p ∈ l, (decodedEntry env p).1 = h := by
  induction l generalizing m with
  | nil => simp [assignAll]
  | cons p l ih =>
    have hstep : assignAll env (p :: l) m
        = assignAll env l (m.set (decodedEntry env p).1 (decodedEntry env p).2) := rfl
    rw [hstep, ih, RecordMap.get_set]
    by_cases hk : h = (decodedEntry env p).1
    · simp [hk]
    · simp [hk, Ne.symm hk]

theorem exists_first_err (env : Imports) (l : List (Bytes × Bytes))
    (h : ∃ p ∈ l, entryErr env p ≠ none) :
    ∃ pre x post e, l = pre ++ x :: post ∧ (∀ p ∈ pre, entryErr env p = none)
      ∧ entryErr env x = some e := by
  induction l with
  | nil =>
    obtain ⟨p, hp, _⟩ := h
    cases hp
  | cons a l ih =>
    cases ha : entryErr env a with
    | some e => exact ⟨[], a, l, e, rfl, by simp, ha⟩
    | none =>
      have hl : ∃ p ∈ l, entryErr env p ≠ none := by
        obtain ⟨p, hp, hne⟩ := h
        rcases List.mem_cons.mp hp with rfl | hp'
        · exact absurd ha hne
        · exact ⟨p, hp', hne⟩
      obtain ⟨pre, x, post, e, hsplit, hpre, hx⟩ := ih hl
      refine ⟨a :: pre, x, post, e, by rw [hsplit]; rfl, ?_, hx⟩
      intro p hp
      rcases List.mem_cons.mp hp with rfl | hp'
      · exact ha
      · exact hpre p hp'

theorem find_of_nodup_keys {α β : Type} [BEq α] [LawfulBEq α] (l : List (α × β))
    (hnd : (l.map Prod.fst).Nodup) (q : α × β) (hq : q ∈ l) :
    l.find? (fun p => p.1 == q.1) = some q := by
  induction l with
  | nil => cases hq
  | cons a l ih =>
    rw [List.map_cons, List.nodup_cons] at hnd
    rcases List.mem_cons.mp hq with rfl | hq'
    · simp [List.find?_cons]
    · have hne : (a.1 == q.1) = false := by
        rw [beq_eq_false_iff_ne]
        intro e
        apply hnd.1
        rw [e]
        exact List.mem_map_of_mem Prod.fst hq'
      simp only [List.find?_cons, hne]
      exact ih hnd.2 hq'

theorem assignAll_entries (env : Imports) (l : List (Bytes × Bytes)) (m : RecordMap)
    (hdisj : ∀ p ∈ l, ∀ q ∈ m.entries, q.1 ≠ (decodedEntry env p).1)
    (hnd : (l.map (fun p => (decodedEntry env p).1)).Nodup) :
    (assignAll env l m).entries = m.entries ++ l.map (decodedEntry env) := by
  induction l generalizing m with
  | nil => simp [assignAll]
  | cons a l ih =>
    rw [List.map_cons, List.nodup_cons] at hnd
    have hset : m.set (decodedEntry env a).1 (decodedEntry env a).2
        = ⟨m.entries ++ [decodedEntry env a]⟩ := by
      simp only [RecordMap.set]
      congr 2
      rw [List.filter_eq_self]
      intro q hq
      simpa using hdisj a (List.mem_cons_self _ _) q hq
    have hstep : assignAll env (a :: l) m
        = assignAll env l (m.set (decodedEntry env a).1 (decodedEntry env a).2) := rfl
    rw [hstep, hset, ih _ ?_ hnd.2]
    · simp
    · intro p hp q hq
      rcases List.mem_append.mp hq with hq' | hq'
      · exact hdisj p (List.mem_cons_of_mem _ hp) q hq'
      · rw [List.mem_singleton] at hq'
        rw [hq']
        intro e
        apply hnd.1
        rw [e]
        exact List.mem_map_of_mem (fun p => (decodedEntry env p).1) hp

/-- C16, as stated, fails: the registry of `brokenRegistryState` has an entry
that decodes, under the key `[4]`, before one whose value does not decode;
`DecodeContractRegistry` returns the decode error together with a map that
holds the entry decoded before the failure. -/
theorem DecodeContractRegistry_partial_counterexample :
    (∃ p ∈ (registry sampleImports brokenRegistryState).elems,
      entryErr sampleImports p ≠ none)
    ∧ (DecodeContractRegistry sampleImports (registry sampleImports brokenRegistryState)).2
        = some (Err.external "record")
    ∧ (DecodeContractRegistry sampleImports (registry sampleImports brokenRegistryState)).1.get 4
        = some (sampleImports.DecodeContractRecord [4, 0, 0]).1
    ∧ (DecodeContractRegistry sampleImports (registry sampleImports brokenRegistryState)).1.len
        = 1 := by
  decide

/-- C16, amended: when some entry of the registry map fails to decode, the
entries split into those before the first failing entry, which all decode,
that entry, and the rest; `DecodeContractRegistry` returns the error of that
first failing entry together with the partial map, which holds the entries
decoded before the failure and no other key. -/
theorem DecodeContractRegistry_first_failure (env : Imports) (contractRegistry : MustMap)
    (hfail : ∃ p ∈ contractRegistry.elems, entryErr env p ≠ none) :
    ∃ pre x post e, contractRegistry.elems = pre ++ x :: post
      ∧ (∀ p ∈ pre, entryErr env p = none)
      ∧ entryErr env x = some e
      ∧ DecodeContractRegistry env contractRegistry
          = (assignAll env pre RecordMap.empty, some e)
      ∧ ∀ h, (DecodeContractRegistry env contractRegistry).1.get h ≠ none
          ↔ ∃ p ∈ pre, (decodedEntry env p).1 = h := by
  obtain ⟨pre, x, post, e, hsplit, hpre, hx⟩ := exists_first_err env _ hfail
  have hres : DecodeContractRegistry env contractRegistry
      = (assignAll env pre RecordMap.empty, some e) := by
    simp only [DecodeContractRegistry, MustMap.Iterate, hsplit]
    exact iterateElems_of_err env pre post x e RecordMap.empty hpre hx
  refine ⟨pre, x, post, e, hsplit, hpre, hx, hres, ?_⟩
  intro h
  rw [hres, assignAll_get_ne_none]
  simp [RecordMap.get, RecordMap.empty]

/-- C16 amended, on a sample: the registry of `brokenRegistryState`. -/
theorem DecodeContractRegistry_first_failure_witness :
    ∃ pre x post e, (registry sampleImports brokenRegistryState).elems = pre ++ x :: post
      ∧ (∀ p ∈ pre, entryErr sampleImports p = none)
      ∧ entryErr sampleImports x = some e
      ∧ DecodeContractRegistry sampleImports (registry sampleImports brokenRegistryState)
          = (assignAll sampleImports pre RecordMap.empty, some e)
      ∧ ∀ h, (DecodeContractRegistry sampleImports
            (registry sampleImports brokenRegistryState)).1.get h ≠ none
          ↔ ∃ p ∈ pre, (decodedEntry sampleImports p).1 = h :=
  DecodeContractRegistry_first_failure sampleImports
    (registry sampleImports brokenRegistryState) ⟨([5], [5]), by decide, by decide⟩

/-- C19: let every entry of the registry map decode, let the keys of the map
be distinct, and let distinct keys decode to distinct identifiers. Then
`DecodeContractRegistry` returns no error; for every key with bytes stored
under it, the returned map has, at the identifier decoded from the key, the
record that `DecodeContractRecord` returns for these bytes; every key of the
returned map is the identifier decoded from a key of the registry map; and
the returned map has as many entries as the registry map. -/
theorem DecodeContractRegistry_full (env : Imports) (contractRegistry : MustMap)
    (hall : ∀ p ∈ contractRegistry.elems, entryErr env p = none)
    (hkeys : (contractRegistry.elems.map Prod.fst).Nodup)
    (hinj : ∀ k ∈ contractRegistry.elems.map Prod.fst,
      ∀ k' ∈ contractRegistry.elems.map Prod.fst,
        (env.NewHnameFromBytes k).1 = (env.NewHnameFromBytes k').1 → k = k') :
    (DecodeContractRegistry env contractRegistry).2 = none
    ∧ (∀ k b, contractRegistry.GetAt k = some b →
        (DecodeContractRegistry env contractRegistry).1.get (env.NewHnameFromBytes k).1
          = some (env.DecodeContractRecord b).1)
    ∧ (∀ h, (DecodeContractRegistry env contractRegistry).1.get h ≠ none →
        ∃ k b, contractRegistry.GetAt k = some b ∧ (env.NewHnameFromBytes k).1 = h)
    ∧ (DecodeContractRegistry env contractRegistry).1.len = contractRegistry.Len := by
  have hres : DecodeContractRegistry env contractRegistry
      = (assignAll env contractRegistry.elems RecordMap.empty, none) := by
    simp only [DecodeContractRegistry, MustMap.Iterate]
    exact iterateElems_of_ok env _ RecordMap.empty hall
  have hnd : (contractRegistry.elems.map (fun p => (decodedEntry env p).1)).Nodup := by
    have h := List.Nodup.map_on hinj hkeys
    rw [List.map_map] at h
    exact h
  have hentries : (assignAll env contractRegistry.elems RecordMap.empty).entries
      = contractRegistry.elems.map (decodedEntry env) := by
    rw [assignAll_entries env _ _ (by simp [RecordMap.empty]) hnd]
    simp [RecordMap.empty]
  have hnd' : ((contractRegistry.elems.map (decodedEntry env)).map Prod.fst).Nodup := by
    rw [List.map_map]
    exact hnd
  have hmem : ∀ k b, contractRegistry.GetAt k = some b ↔ (k, b) ∈ contractRegistry.elems := by
    intro k b
    rw [MustMap.getAt_eq_find_elems]
    constructor
    · intro h
      obtain ⟨p, hp, hb⟩ := Option.map_eq_some'.mp h
      have hk : p.1 = k := by simpa using List.find?_some hp
      have : p = (k, b) := Prod.ext hk hb
      rw [← this]
      exact List.mem_of_find?_eq_some hp
    · intro h
      have := find_of_nodup_keys contractRegistry.elems hkeys (k, b) h
      simp only at this
      rw [this]
      rfl
  rw [hres]
  refine ⟨rfl, ?_, ?_, ?_⟩
  · intro k b hget
    have hin : decodedEntry env (k, b) ∈ contractRegistry.elems.map (decodedEntry env) :=
      List.mem_map_of_mem _ ((hmem k b).mp hget)
    have := find_of_nodup_keys _ hnd' _ hin
    simp only [RecordMap.get, hentries]
    rw [show (env.NewHnameFromBytes k).1 = (decodedEntry env (k, b)).1 from rfl, this]
    rfl
  · intro h hne
    obtain hm | ⟨p, hp, hh⟩ := (assignAll_get_ne_none env _ _ h).mp hne
    · simp [RecordMap.get, RecordMap.empty] at hm
    · exact ⟨p.1, p.2, (hmem p.1 p.2).mpr hp, hh⟩
  · simp [RecordMap.len, hentries, MustMap.Len]

/-- C19, on a sample: the registry of `registryState`, with the keys `[4]` and
`[5]`. -/
theorem DecodeContractRegistry_full_witness :
    (DecodeContractRegistry sampleImports (registry sampleImports registryState)).2 = none
    ∧ (∀ k b, (registry sampleImports registryState).GetAt k = some b →
        (DecodeContractRegistry sampleImports (registry sampleImports registryState)).1.get
            (sampleImports.NewHnameFromBytes k).1
          = some (sampleImports.DecodeContractRecord b).1)
    ∧ (∀ h, (DecodeContractRegistry sampleImports
          (registry sampleImports registryState)).1.get h ≠ none →
        ∃ k b, (registry sampleImports registryState).GetAt k = some b
          ∧ (sampleImports.NewHnameFromBytes k).1 = h)
    ∧ (DecodeContractRegistry sampleImports (registry sampleImports registryState)).1.len
        = (registry sampleImports registryState).Len :=
  DecodeContractRegistry_full sampleImports (registry sampleImports registryState)
    (by decide) (by decide) (by decide)

/-! ## Owner check and the `init` call -/

/-- C17: when the state holds under the chain owner key bytes that decode,
with `ok` and without error, to the agent identifier `o`, then for every agent
identifier `a` the check returns true exactly when `a = o`. The function only
reads the state: its embedding has no resulting state. -/
theorem CheckAuthorizationByChainOwner_iff (env : Imports) (state : KVStore) (b : Bytes)
    (o a : AgentID)
    (hstored : state.MustGet env.VarChainOwnerID = some b)
    (hvalid : env.DecodeAgentID (some b) = (o, true, none)) :
    (CheckAuthorizationByChainOwner env state a = true ↔ a = o)
    ∧ (CheckAuthorizationByChainOwner env state a = false ↔ a ≠ o) := by
  simp only [CheckAuthorizationByChainOwner, hstored, hvalid, decide_eq_true_eq,
    decide_eq_false_iff_not]
  exact ⟨eq_comm, not_congr eq_comm⟩

/-- C17, on a sample: the owner stored in `chainState` is the address `[1]`,
and the agent asked about is a contract. -/
theorem CheckAuthorizationByChainOwner_iff_witness :
    CheckAuthorizationByChainOwner sampleImports chainState (.address [1]) = true
    ∧ (CheckAuthorizationByChainOwner sampleImports chainState (.contract [7] 2) = true
        ↔ AgentID.contract [7] 2 = AgentID.address [1])
    ∧ (CheckAuthorizationByChainOwner sampleImports chainState (.contract [7] 2) = false
        ↔ AgentID.contract [7] 2 ≠ AgentID.address [1]) :=
  ⟨by decide,
    CheckAuthorizationByChainOwner_iff sampleImports chainState [0, 1] (.address [1])
      (.contract [7] 2) (by decide) (by decide)⟩

/-- C18: when the identifier of the record is not in the registry,
`storeAndInitContract` makes exactly one call: to the contract `Hn(rec.Name)`,
at the entry point `init`, with the supplied parameters and a nil transfer; the
state handed to that call is the state with the record written, which has the
encoded record in the registry under the key of `Hn(rec.Name)`. -/
theorem storeAndInitContract_call (env : Imports) (ctx : Sandbox) (rec : ContractRecord)
    (initParams : Dict)
    (habsent : (registry env ctx.State).HasAt (registryKey env rec) = false) :
    (storeAndInitContract env ctx rec initParams).1.calls
      = ctx.calls
        ++ [⟨env.Hn rec.Name, env.EntryPointInit, initParams, none,
            registered env ctx.State rec⟩]
    ∧ (registry env (registered env ctx.State rec)).GetAt (registryKey env rec)
        = some (env.EncodeContractRecord rec)
    ∧ (registry env (registered env ctx.State rec)).HasAt (registryKey env rec) = true := by
  refine ⟨?_, ?_, ?_⟩
  · cases h : (initCall env ctx rec initParams).2.2 with
    | none => rw [storeAndInitContract_of_succeeds env ctx rec initParams habsent h]
    | some e => rw [storeAndInitContract_of_fails env ctx rec initParams e habsent h]
  · exact KVStore.get_set_self ctx.State _ _
  · exact KVStore.has_set_self ctx.State _ _

/-- C18, on a sample: the deployment of `alpha` into the sample state, with
parameters, by a host whose calls fail; the handed state is the sample state
followed by the entry of `alpha`. -/
theorem storeAndInitContract_call_witness :
    registered sampleImports sampleState alpha
      = ⟨[([114, 4], [4, 0, 0]), ([111], [10]), ([118], [20]), ([114, 5], [5, 0, 500])]⟩
    ∧ (storeAndInitContract sampleImports (sampleSandbox sampleState hostFails) alpha
          [([1], [2])]).1.calls
      = (sampleSandbox sampleState hostFails).calls
        ++ [⟨sampleImports.Hn alpha.Name, sampleImports.EntryPointInit, [([1], [2])], none,
            registered sampleImports (sampleSandbox sampleState hostFails).State alpha⟩]
    ∧ (registry sampleImports
        (registered sampleImports (sampleSandbox sampleState hostFails).State alpha)).GetAt
          (registryKey sampleImports alpha)
        = some (sampleImports.EncodeContractRecord alpha)
    ∧ (registry sampleImports
        (registered sampleImports (sampleSandbox sampleState hostFails).State alpha)).HasAt
          (registryKey sampleImports alpha) = true :=
  ⟨by decide,
    storeAndInitContract_call sampleImports (sampleSandbox sampleState hostFails) alpha
      [([1], [2])] (by decide)⟩

end Root
